import Mathlib

/-!
# Mesh / model loading and hierarchical drawing

A shallow embedding of `include/my_mesh.h` and `include/my_model.h`, and of the
material presets of the GUI window in `src/main.cpp`.

Conventions of the embedding.

* Scalars (`float`, `ai_real`) are elements of a field `R`; the statements about
  matrices are read over `ℝ`.  A copy of a scalar is exact.
* `std::vector<T>` and a C array together with its element count are a `List T`;
  `unsigned int` counters and sizes are natural numbers (every sequence is
  taken to hold fewer than `2 ^ 31` elements, so the `static_cast`s to
  `unsigned int` and the conversions to the signed sizes of the graphics layer
  are the identity).
* A read outside an array (undefined behaviour in the source) makes the
  embedded function return `none`.
* Objects passed by non-const reference and the global GL context are threaded
  explicitly as state.
-/

namespace RTR

/-! ## glm vectors and matrices -/

/-- Two-component vector, `glm::vec2`. -/
structure Vec2 (R : Type) where
  x : R
  y : R
  deriving DecidableEq

/-- Three-component vector, `glm::vec3` and `aiVector3D`. -/
structure Vec3 (R : Type) where
  x : R
  y : R
  z : R
  deriving DecidableEq

/-- Four-component vector, `glm::vec4`: one column of a `glm::mat4`. -/
structure Vec4 (R : Type) where
  x : R
  y : R
  z : R
  w : R
  deriving DecidableEq

/-- Column-major 4x4 matrix, `glm::mat4`: `c0 .. c3` are `m[0] .. m[3]`. -/
structure Mat4 (R : Type) where
  c0 : Vec4 R
  c1 : Vec4 R
  c2 : Vec4 R
  c3 : Vec4 R
  deriving DecidableEq

/-- The scalar functions of the C math library that glm calls. -/
structure MathFns (R : Type) where
  cos : R → R
  sin : R → R
  sqrt : R → R

section Glm

variable {R : Type} [Field R]

/-- Component-wise sum of two columns, `vec4 + vec4`. -/
def Vec4.add (a b : Vec4 R) : Vec4 R :=
  ⟨a.x + b.x, a.y + b.y, a.z + b.z, a.w + b.w⟩

/-- Column times scalar, `vec4 * T`. -/
def Vec4.scale (a : Vec4 R) (k : R) : Vec4 R :=
  ⟨a.x * k, a.y * k, a.z * k, a.w * k⟩

/-- Vector times scalar, `vec3 * T`. -/
def Vec3.scale (a : Vec3 R) (k : R) : Vec3 R :=
  ⟨a.x * k, a.y * k, a.z * k⟩

/-- Scalar times vector, `T * vec3`. -/
def Vec3.smul (k : R) (a : Vec3 R) : Vec3 R :=
  ⟨k * a.x, k * a.y, k * a.z⟩

/-- Scalar product `glm::dot` of two `vec3`. -/
def glm.dot (a b : Vec3 R) : R :=
  a.x * b.x + a.y * b.y + a.z * b.z

/-- The function `glm::inversesqrt`: `1 / sqrt x`. -/
def glm.inversesqrt (F : MathFns R) (x : R) : R :=
  1 / F.sqrt x

/-- The function `glm::normalize`: `v * inversesqrt (dot v v)`. -/
def glm.normalize (F : MathFns R) (v : Vec3 R) : Vec3 R :=
  v.scale (glm.inversesqrt F (glm.dot v v))

/-- The constructor `glm::mat4(1.0f)`: the identity matrix. -/
def glm.mat4_1 : Mat4 R :=
  ⟨⟨1, 0, 0, 0⟩, ⟨0, 1, 0, 0⟩, ⟨0, 0, 1, 0⟩, ⟨0, 0, 0, 1⟩⟩

/-- The function `glm::translate (m, v)`:
`Result = m; Result[3] = m[0] * v[0] + m[1] * v[1] + m[2] * v[2] + m[3]`. -/
def glm.translate (m : Mat4 R) (v : Vec3 R) : Mat4 R :=
  { m with c3 := (((m.c0.scale v.x).add (m.c1.scale v.y)).add (m.c2.scale v.z)).add m.c3 }

/-- The function `glm::rotate (m, angle, v)` (angle in radians), following the
library's implementation: the rotation `Rotate` about the normalised axis is
built entry by entry (`rCR` is `Rotate[C][R]`) and the first three columns of
`m` are combined with it; the last column of `m` is kept. -/
def glm.rotate (F : MathFns R) (m : Mat4 R) (angle : R) (v : Vec3 R) : Mat4 R :=
  let a := angle
  let c := F.cos a
  let s := F.sin a
  let axis := glm.normalize F v
  let temp := Vec3.smul (1 - c) axis
  let r00 := c + temp.x * axis.x
  let r01 := temp.x * axis.y + s * axis.z
  let r02 := temp.x * axis.z - s * axis.y
  let r10 := temp.y * axis.x - s * axis.z
  let r11 := c + temp.y * axis.y
  let r12 := temp.y * axis.z + s * axis.x
  let r20 := temp.z * axis.x + s * axis.y
  let r21 := temp.z * axis.y - s * axis.x
  let r22 := c + temp.z * axis.z
  { c0 := ((m.c0.scale r00).add (m.c1.scale r01)).add (m.c2.scale r02)
    c1 := ((m.c0.scale r10).add (m.c1.scale r11)).add (m.c2.scale r12)
    c2 := ((m.c0.scale r20).add (m.c1.scale r21)).add (m.c2.scale r22)
    c3 := m.c3 }

/-- The function `glm::radians`: degrees times the library's literal for pi / 180. -/
def glm.radians (degrees : R) : R :=
  degrees * ((1745329251994329576923690768489 : R) / 100000000000000000000000000000000)

/-- The mathematical matrix a `glm::mat4` stands for: entry `(i, j)` is
component `i` of column `j`. -/
def Mat4.toMatrix (m : Mat4 R) : Matrix (Fin 4) (Fin 4) R :=
  !![m.c0.x, m.c1.x, m.c2.x, m.c3.x;
     m.c0.y, m.c1.y, m.c2.y, m.c3.y;
     m.c0.z, m.c1.z, m.c2.z, m.c3.z;
     m.c0.w, m.c1.w, m.c2.w, m.c3.w]

end Glm

/-! ## Data model of `my_mesh.h` -/

/-- The record `struct Vertex`.  `Normal` is `none` while the field has not been
written: the source declares `Vertex vertex;` without initialising it. -/
structure Vertex (R : Type) where
  Position : Vec3 R
  Normal : Option (Vec3 R)
  TexCoords : Vec2 R

/-- The record `struct Texture`: GPU handle and source path. -/
structure Texture where
  id : Nat
  path : String

/-- Index of the x translation in `mesh6DoF`. -/
def tX : Fin 6 := 0
/-- Index of the y translation in `mesh6DoF`. -/
def tY : Fin 6 := 1
/-- Index of the z translation in `mesh6DoF`. -/
def tZ : Fin 6 := 2
/-- Index of the rotation about X in `mesh6DoF`. -/
def rX : Fin 6 := 3
/-- Index of the rotation about Y in `mesh6DoF`. -/
def rY : Fin 6 := 4
/-- Index of the rotation about Z in `mesh6DoF`. -/
def rZ : Fin 6 := 5

/-- The members of `class Mesh`, the private handles `VAO`, `VBO`, `EBO` included. -/
structure Mesh (R : Type) where
  vertices : List (Vertex R)
  indices : List Nat
  textures : List Texture
  meshMatrix : Mat4 R
  meshName : String
  mesh6DoF : Fin 6 → R
  initRad : R
  initRot : R
  VAO : Nat
  VBO : Nat
  EBO : Nat

/-! ## Graphics state -/

/-- Modelled from the spec: the shader context of `my_shader.h`, which is not
among the sources.  It is "a shader/uniform-setting facility exposed with named
setters for integers, floats, and 4x4 matrices, addressed by uniform name
string": the value last set under each name, per kind. -/
structure Shader (R : Type) where
  ints : String → Option Int
  floats : String → Option R
  mat4s : String → Option (Mat4 R)

/-- What an indexed draw call is issued with: the index count, the vertex array
bound, the uniform values and the texture bound to each unit at that moment. -/
structure DrawCall (R : Type) where
  count : Nat
  vertexArray : Nat
  uniforms : Shader R
  textureBinding : Nat → Nat

/-- Pixel formats passed to `glTexImage2D`. -/
inductive PixelFormat
  | GL_RED
  | GL_RGB
  | GL_RGBA
  deriving DecidableEq, Repr

/-- Buffer binding targets. -/
inductive BufferTarget
  | GL_ARRAY_BUFFER
  | GL_ELEMENT_ARRAY_BUFFER
  deriving DecidableEq, Repr

/-- Texture parameter names used by `loadTexture`. -/
inductive TexParam
  | GL_TEXTURE_WRAP_S
  | GL_TEXTURE_WRAP_T
  | GL_TEXTURE_MIN_FILTER
  | GL_TEXTURE_MAG_FILTER
  deriving DecidableEq, Repr

/-- Texture parameter values used by `loadTexture`. -/
inductive TexValue
  | GL_REPEAT
  | GL_LINEAR
  deriving DecidableEq, Repr

/-- The field of `Vertex` an attribute pointer is set to (`offsetof`). -/
inductive VertexField
  | Position
  | Normal
  | TexCoords
  deriving DecidableEq, Repr

/-- A decoded image as `stbi_load` returns it. -/
structure Image where
  width : Int
  height : Int
  numChannels : Int
  data : List Nat

/-- One command submitted to the graphics layer, with its arguments. -/
inductive GLCall (R : Type)
  | genTextures (name : Nat)
  | genVertexArrays (name : Nat)
  | genBuffers (name : Nat)
  | bindVertexArray (array : Nat)
  | bindBuffer (target : BufferTarget) (buffer : Nat)
  | bufferVertices (data : List (Vertex R))
  | bufferIndices (data : List Nat)
  | enableVertexAttribArray (index : Nat)
  | vertexAttribPointer (index size : Nat) (field : VertexField)
  | activeTexture (unit : Nat)
  | bindTexture (texture : Nat)
  | texImage2D (internalFormat : PixelFormat) (image : Image) (format : PixelFormat)
  | generateMipmap
  | texParameteri (pname : TexParam) (param : TexValue)
  | setInt (name : String) (value : Int)
  | setMat4 (name : String) (value : Mat4 R)
  | drawElements (call : DrawCall R)

/-- The state every operation acts on: the shader context handed to the draw
operations by reference, the GL context (name counters, active texture unit,
bindings), the commands submitted so far and the lines written to `std::cout`. -/
structure Gfx (R : Type) where
  shader : Shader R
  textureNames : Nat
  vertexArrayNames : Nat
  bufferNames : Nat
  activeTexture : Nat
  textureBinding : Nat → Nat
  vertexArrayBinding : Nat
  calls : List (GLCall R)
  cout : List String

section Primitives

variable {R : Type}

/-- Append one command to the log. -/
def Gfx.submit (g : Gfx R) (c : GLCall R) : Gfx R :=
  { g with calls := g.calls ++ [c] }

/-- The draw calls among the submitted commands, in order. -/
def drawCalls : List (GLCall R) → List (DrawCall R)
  | [] => []
  | GLCall.drawElements d :: cs => d :: drawCalls cs
  | _ :: cs => drawCalls cs

/-- The call `glGenTextures (1, &id)`: the layer hands out the next unused name. -/
def glGenTextures (g : Gfx R) : Nat × Gfx R :=
  let name := g.textureNames + 1
  (name, { g with textureNames := name }.submit (GLCall.genTextures name))

/-- The call `glGenVertexArrays (1, &id)`. -/
def glGenVertexArrays (g : Gfx R) : Nat × Gfx R :=
  let name := g.vertexArrayNames + 1
  (name, { g with vertexArrayNames := name }.submit (GLCall.genVertexArrays name))

/-- The call `glGenBuffers (1, &id)`. -/
def glGenBuffers (g : Gfx R) : Nat × Gfx R :=
  let name := g.bufferNames + 1
  (name, { g with bufferNames := name }.submit (GLCall.genBuffers name))

/-- The call `glBindVertexArray (array)`. -/
def glBindVertexArray (array : Nat) (g : Gfx R) : Gfx R :=
  { g with vertexArrayBinding := array }.submit (GLCall.bindVertexArray array)

/-- The call `glActiveTexture (GL_TEXTURE0 + unit)`. -/
def glActiveTexture (unit : Nat) (g : Gfx R) : Gfx R :=
  { g with activeTexture := unit }.submit (GLCall.activeTexture unit)

/-- The call `glBindTexture (GL_TEXTURE_2D, texture)`: binds to the active unit. -/
def glBindTexture (texture : Nat) (g : Gfx R) : Gfx R :=
  { g with textureBinding := Function.update g.textureBinding g.activeTexture texture }.submit
    (GLCall.bindTexture texture)

/-- The call `glDrawElements (GL_TRIANGLES, count, GL_UNSIGNED_INT, 0)`: the
draw is issued under the current bindings and uniform values. -/
def glDrawElements (count : Nat) (g : Gfx R) : Gfx R :=
  g.submit (GLCall.drawElements ⟨count, g.vertexArrayBinding, g.shader, g.textureBinding⟩)

/-- Modelled from the spec: the named integer setter `Shader::setInt` of the
absent `my_shader.h`. -/
def Shader.setInt (name : String) (value : Int) (g : Gfx R) : Gfx R :=
  { g with shader := { g.shader with ints := Function.update g.shader.ints name (some value) } }.submit
    (GLCall.setInt name value)

/-- Modelled from the spec: the named 4x4 matrix setter `Shader::setMat4` of the
absent `my_shader.h`. -/
def Shader.setMat4 (name : String) (value : Mat4 R) (g : Gfx R) : Gfx R :=
  { g with shader := { g.shader with mat4s := Function.update g.shader.mat4s name (some value) } }.submit
    (GLCall.setMat4 name value)

/-- The loop `for (i = start; i < start + xs.size (); i++) body (i, xs[i - start])`
over a sequence whose length is the loop bound. -/
def forEachFrom {α σ : Type} (body : Nat → α → σ → σ) : Nat → List α → σ → σ
  | _, [], s => s
  | i, x :: xs, s => forEachFrom body (i + 1) xs (body i x s)

/-- The loop `for (i = 0; i < xs.size (); i++) body (i, xs[i])`. -/
def forEach {α σ : Type} (body : Nat → α → σ → σ) (xs : List α) (s : σ) : σ :=
  forEachFrom body 0 xs s

/-- The loop of `forEachFrom` with a body that can fail. -/
def forEachFromM {α σ : Type} (body : Nat → α → σ → Option σ) : Nat → List α → σ → Option σ
  | _, [], s => some s
  | i, x :: xs, s => (body i x s).bind (forEachFromM body (i + 1) xs)

/-- The loop of `forEach` with a body that can fail. -/
def forEachM {α σ : Type} (body : Nat → α → σ → Option σ) (xs : List α) (s : σ) : Option σ :=
  forEachFromM body 0 xs s

end Primitives

/-! ## `class Mesh` -/

section MeshOps

variable {R : Type} [Field R]

/-- The private method `Mesh::setupMesh`, on the vertex and index sequences
already stored: it generates the three handles, uploads both sequences and
declares the three vertex attributes.  Returns `(VAO, VBO, EBO)`. -/
def Mesh.setupMesh (vertices : List (Vertex R)) (indices : List Nat) (g : Gfx R) :
    (Nat × Nat × Nat) × Gfx R :=
  let (VAO, g) := glGenVertexArrays g
  let (VBO, g) := glGenBuffers g
  let (EBO, g) := glGenBuffers g
  let g := glBindVertexArray VAO g
  let g := g.submit (GLCall.bindBuffer BufferTarget.GL_ARRAY_BUFFER VBO)
  let g := g.submit (GLCall.bufferVertices vertices)
  let g := g.submit (GLCall.bindBuffer BufferTarget.GL_ELEMENT_ARRAY_BUFFER EBO)
  let g := g.submit (GLCall.bufferIndices indices)
  let g := g.submit (GLCall.enableVertexAttribArray 0)
  let g := g.submit (GLCall.vertexAttribPointer 0 3 VertexField.Position)
  let g := g.submit (GLCall.enableVertexAttribArray 1)
  let g := g.submit (GLCall.vertexAttribPointer 1 3 VertexField.Normal)
  let g := g.submit (GLCall.enableVertexAttribArray 2)
  let g := g.submit (GLCall.vertexAttribPointer 2 2 VertexField.TexCoords)
  let g := glBindVertexArray 0 g
  ((VAO, VBO, EBO), g)

/-- The constructor `Mesh::Mesh (vertices, indices, textures)`: stores the three
sequences, runs `setupMesh` and sets the matrix to the identity; the other
members keep their default initialisers (empty name, zero pose). -/
def Mesh.new (vertices : List (Vertex R)) (indices : List Nat) (textures : List Texture)
    (g : Gfx R) : Mesh R × Gfx R :=
  let (handles, g) := Mesh.setupMesh vertices indices g
  ({ vertices := vertices
     indices := indices
     textures := textures
     meshMatrix := glm.mat4_1
     meshName := ""
     mesh6DoF := fun _ => 0
     initRad := 0
     initRot := 0
     VAO := handles.1
     VBO := handles.2.1
     EBO := handles.2.2 }, g)

/-- The method `Mesh::updateModelMatrix`. -/
def Mesh.updateModelMatrix (F : MathFns R) (mesh : Mesh R) : Mesh R :=
  let meshMatrix : Mat4 R := glm.mat4_1
  let meshMatrix := glm.translate meshMatrix
    ⟨mesh.mesh6DoF tX, mesh.mesh6DoF tY, mesh.mesh6DoF tZ⟩
  let meshMatrix := glm.rotate F meshMatrix (mesh.mesh6DoF rX) ⟨1, 0, 0⟩
  let meshMatrix := glm.rotate F meshMatrix (mesh.mesh6DoF rY) ⟨0, 1, 0⟩
  let meshMatrix := glm.rotate F meshMatrix (mesh.mesh6DoF rZ) ⟨0, 0, 1⟩
  { mesh with meshMatrix := meshMatrix }

/-- The body of the texture loop shared by `Mesh::draw` and `Mesh::drawHierarchy`. -/
def Mesh.bindTextureStep (i : Nat) (texture : Texture) (g : Gfx R) : Gfx R :=
  let g := glActiveTexture i g
  let g := Shader.setInt ("textureDiffuse" ++ toString i) (Int.ofNat i) g
  glBindTexture texture.id g

/-- The method `Mesh::draw (shader)`. -/
def Mesh.draw (mesh : Mesh R) (g : Gfx R) : Gfx R :=
  let g := forEach Mesh.bindTextureStep mesh.textures g
  let g := glBindVertexArray mesh.VAO g
  let g := glDrawElements mesh.indices.length g
  let g := glBindVertexArray 0 g
  glActiveTexture 0 g

/-- The method `Mesh::drawHierarchy (shader, modelMat, rotZ)`.  The last two
arguments are passed by reference: their values on return are returned next to
the state. -/
def Mesh.drawHierarchy (F : MathFns R) (mesh : Mesh R) (g : Gfx R) (modelMat : Mat4 R) (rotZ : R) :
    Gfx R × Mat4 R × R :=
  let model := modelMat
  let model := glm.rotate F model (glm.radians rotZ) ⟨0, 0, 1⟩
  let g := Shader.setMat4 "model" model g
  let g := forEach Mesh.bindTextureStep mesh.textures g
  let g := glBindVertexArray mesh.VAO g
  let g := glDrawElements mesh.indices.length g
  let g := glBindVertexArray 0 g
  let g := glActiveTexture 0 g
  let g := Shader.setMat4 "model" modelMat g
  (g, modelMat, rotZ)

end MeshOps

/-! ## `class Model`: drawing -/

/-- The members of `class Model`. -/
structure Model (R : Type) where
  meshes : List (Mesh R)

section ModelDraw

variable {R : Type} [Field R]

/-- The method `Model::draw (shader)`. -/
def Model.draw (model : Model R) (g : Gfx R) : Gfx R :=
  forEach (fun _ mesh g => Mesh.draw mesh g) model.meshes g

/-- The loop body of `Model::drawHierarchy`: the tagged mesh is drawn with
`Mesh::drawHierarchy`, any other with `Mesh::draw`. -/
def Model.drawHierarchy.step (F : MathFns R) (mesh : Mesh R) (s : Gfx R × Mat4 R × R) :
    Gfx R × Mat4 R × R :=
  if mesh.meshName = "Prop" then
    Mesh.drawHierarchy F mesh s.1 s.2.1 s.2.2
  else
    (Mesh.draw mesh s.1, s.2.1, s.2.2)

/-- The method `Model::drawHierarchy (shader, modelMat, rotZ)`; `modelMat` and
`rotZ` are the same references in every iteration. -/
def Model.drawHierarchy (F : MathFns R) (model : Model R) (g : Gfx R) (modelMat : Mat4 R)
    (rotZ : R) : Gfx R × Mat4 R × R :=
  forEach (fun _ mesh s => Model.drawHierarchy.step F mesh s) model.meshes (g, modelMat, rotZ)

end ModelDraw

/-! ## The imported scene (assimp) and the files read -/

/-- The record `aiFace`: the index list of one face (`mNumIndices` is its length). -/
structure AiFace where
  mIndices : List Nat

/-- The fields of `aiMesh` that are read.  `mNumVertices` is the length of
`mVertices`, `mNumFaces` the length of `mFaces`; `mNormals` and the eight
entries of `mTextureCoords` are arrays that may be null. -/
structure AiMesh (R : Type) where
  mName : String
  mVertices : List (Vec3 R)
  mNormals : Option (List (Vec3 R))
  mTextureCoords : Fin 8 → Option (List (Vec3 R))
  mFaces : List AiFace
  mMaterialIndex : Nat

/-- The member `aiMesh::mNumVertices`. -/
def AiMesh.mNumVertices {R : Type} (mesh : AiMesh R) : Nat :=
  mesh.mVertices.length

/-- The method `aiMesh::HasNormals ()`: `mNormals != nullptr && mNumVertices > 0`. -/
def AiMesh.HasNormals {R : Type} (mesh : AiMesh R) : Bool :=
  mesh.mNormals.isSome && decide (0 < mesh.mNumVertices)

/-- The kinds of texture slot of a material (`aiTextureType`). -/
inductive AiTextureType
  | NONE
  | DIFFUSE
  | SPECULAR
  | AMBIENT
  | EMISSIVE
  | HEIGHT
  | NORMALS
  | SHININESS
  | OPACITY
  | DISPLACEMENT
  | LIGHTMAP
  | REFLECTION
  | UNKNOWN
  deriving DecidableEq, Repr

/-- The record `aiMaterial`: for each slot kind the texture paths, in slot order
(`GetTextureCount (type)` is the length, `GetTexture (type, i)` entry `i`). -/
structure AiMaterial where
  textures : AiTextureType → List String

/-- The record `aiNode`: the mesh references attached to the node (indices into
the scene's mesh array) and the child nodes. -/
inductive AiNode where
  | mk (mMeshes : List Nat) (mChildren : List AiNode)

/-- The record `aiScene`; `mRootNode` may be null. -/
structure AiScene (R : Type) where
  mFlags : Nat
  mRootNode : Option AiNode
  mMeshes : List (AiMesh R)
  mMaterials : List AiMaterial

/-- The flag `AI_SCENE_FLAGS_INCOMPLETE`. -/
def AI_SCENE_FLAGS_INCOMPLETE : Nat := 1

/-- The files as the two external readers see them: what
`Assimp::Importer::ReadFile` returns for a path (a null scene on failure) with
the importer's error string, and what `stbi_load` returns (null on failure). -/
structure Files (R : Type) where
  ReadFile : String → Option (AiScene R)
  GetErrorString : String → String
  stbi_load : String → Option Image

/-! ## `loadTexture` and `class Model`: loading -/

section Loading

variable {R : Type} [Field R]

/-- The pixel format `loadTexture` picks for a channel count. -/
def loadTexture.format (numChannels : Int) : PixelFormat :=
  let format := PixelFormat.GL_RGB
  if numChannels = 1 then
    PixelFormat.GL_RED
  else if numChannels = 3 then
    PixelFormat.GL_RGB
  else if numChannels = 4 then
    PixelFormat.GL_RGBA
  else
    format

/-- The function `loadTexture (texturePath)`.  The decoder's flip flag and the
release of the decoded buffer touch nothing that is modelled and are left out. -/
def loadTexture (W : Files R) (texturePath : String) (g : Gfx R) : Nat × Gfx R :=
  let (textureID, g) := glGenTextures g
  let data := W.stbi_load texturePath
  let g :=
    match data with
    | some image =>
      let format := loadTexture.format image.numChannels
      let g := glBindTexture textureID g
      let g := g.submit (GLCall.texImage2D format image format)
      let g := g.submit GLCall.generateMipmap
      let g := g.submit (GLCall.texParameteri TexParam.GL_TEXTURE_WRAP_S TexValue.GL_REPEAT)
      let g := g.submit (GLCall.texParameteri TexParam.GL_TEXTURE_WRAP_T TexValue.GL_REPEAT)
      let g := g.submit (GLCall.texParameteri TexParam.GL_TEXTURE_MIN_FILTER TexValue.GL_LINEAR)
      g.submit (GLCall.texParameteri TexParam.GL_TEXTURE_MAG_FILTER TexValue.GL_LINEAR)
    | none =>
      { g with cout := g.cout ++ ["Texture failed to load at path: " ++ texturePath] }
  (textureID, g)

/-- The method `Model::loadMaterialTextures (mat, type)`. -/
def Model.loadMaterialTextures (W : Files R) (mat : AiMaterial) (type : AiTextureType)
    (g : Gfx R) : List Texture × Gfx R :=
  forEach
    (fun _ str (s : List Texture × Gfx R) =>
      let (id, g) := loadTexture W str s.2
      let texture : Texture := { id := id, path := str }
      (s.1 ++ [texture], g))
    (mat.textures type) ([], g)

/-- The vertex loop body of `Model::processMesh` up to the `push_back`: the
`Vertex` built for source vertex `i`, whose position is `p`. -/
def Model.processMesh.vertex (mesh : AiMesh R) (i : Nat) (p : Vec3 R) : Option (Vertex R) := do
  let Position : Vec3 R := ⟨p.x, p.y, p.z⟩
  let Normal ←
    if mesh.HasNormals then do
      let normals ← mesh.mNormals
      let n ← normals[i]?
      pure (some (⟨n.x, n.y, n.z⟩ : Vec3 R))
    else
      pure none
  let TexCoords ←
    match mesh.mTextureCoords 0 with
    | some channel => do
      let t ← channel[i]?
      pure (⟨t.x, t.y⟩ : Vec2 R)
    | none => pure (⟨0, 0⟩ : Vec2 R)
  pure { Position := Position, Normal := Normal, TexCoords := TexCoords }

/-- The vertex loop of `Model::processMesh`: one `Vertex` is built and pushed
for every source vertex. -/
def Model.processMesh.vertexLoop (mesh : AiMesh R) : Option (List (Vertex R)) :=
  forEachM
    (fun i p vertices => (Model.processMesh.vertex mesh i p).map fun vertex => vertices ++ [vertex])
    mesh.mVertices []

/-- The face loop of `Model::processMesh`: every index of every face is pushed. -/
def Model.processMesh.faceLoop (mFaces : List AiFace) : List Nat :=
  forEach
    (fun _ face indices => forEach (fun _ index indices => indices ++ [index]) face.mIndices indices)
    mFaces []

/-- The method `Model::processMesh (mesh, scene)`. -/
def Model.processMesh (W : Files R) (mesh : AiMesh R) (scene : AiScene R) (g : Gfx R) :
    Option (Mesh R × Gfx R) := do
  let vertices ← Model.processMesh.vertexLoop mesh
  let indices := Model.processMesh.faceLoop mesh.mFaces
  let textures : List Texture := []
  let material ← scene.mMaterials[mesh.mMaterialIndex]?
  let (textureMaps, g) := Model.loadMaterialTextures W material AiTextureType.DIFFUSE g
  let textures := textures ++ textureMaps
  let (tempMesh, g) := Mesh.new vertices indices textures g
  let meshName := mesh.mName
  let tempMesh := if meshName ≠ "" then { tempMesh with meshName := meshName } else tempMesh
  pure (tempMesh, g)

/-- The body of the mesh loop of `Model::processNode`: converts the scene mesh
that reference `ref` names and appends it to `meshes`. -/
def Model.processNode.meshStep (W : Files R) (scene : AiScene R) (ref : Nat)
    (s : List (Mesh R) × Gfx R) : Option (List (Mesh R) × Gfx R) := do
  let mesh ← scene.mMeshes[ref]?
  let (converted, g) ← Model.processMesh W mesh scene s.2
  pure (s.1 ++ [converted], g)

mutual
/-- The method `Model::processNode (node, scene)`; the state holds the member
`meshes` of the model under construction. -/
def Model.processNode (W : Files R) (scene : AiScene R) :
    AiNode → List (Mesh R) × Gfx R → Option (List (Mesh R) × Gfx R)
  | AiNode.mk mMeshes mChildren, s =>
    (forEachM (fun _ ref s => Model.processNode.meshStep W scene ref s) mMeshes s).bind
      (Model.processNode.children W scene mChildren)
/-- The loop of `Model::processNode` over the child nodes. -/
def Model.processNode.children (W : Files R) (scene : AiScene R) :
    List AiNode → List (Mesh R) × Gfx R → Option (List (Mesh R) × Gfx R)
  | [], s => some s
  | child :: rest, s =>
    (Model.processNode W scene child s).bind (Model.processNode.children W scene rest)
end

/-- The method `Model::loadModel (path)`. -/
def Model.loadModel (W : Files R) (path : String) (s : List (Mesh R) × Gfx R) :
    Option (List (Mesh R) × Gfx R) :=
  let failed : List (Mesh R) × Gfx R :=
    (s.1, { s.2 with cout := s.2.cout ++ ["ERROR::ASSIMP:: " ++ W.GetErrorString path] })
  match W.ReadFile path with
  | none => some failed
  | some scene =>
    if scene.mFlags &&& AI_SCENE_FLAGS_INCOMPLETE ≠ 0 then
      some failed
    else
      match scene.mRootNode with
      | none => some failed
      | some root => Model.processNode W scene root s

/-- The constructor `Model::Model (objPath)`: `loadModel` on the empty mesh list. -/
def Model.new (W : Files R) (objPath : String) (g : Gfx R) : Option (Model R × Gfx R) :=
  (Model.loadModel W objPath ([], g)).map fun s => (⟨s.1⟩, s.2)

end Loading

/-! ## The transform written as a product of standard matrices -/

section SpecMatrices

variable {R : Type} [Field R]

/-- Homogeneous translation matrix `T (tx, ty, tz)`. -/
def Spec.T (tx ty tz : R) : Matrix (Fin 4) (Fin 4) R :=
  !![1, 0, 0, tx;
     0, 1, 0, ty;
     0, 0, 1, tz;
     0, 0, 0, 1]

/-- Homogeneous rotation matrix `Rx (a)` about the X axis, angle in radians. -/
def Spec.Rx (F : MathFns R) (a : R) : Matrix (Fin 4) (Fin 4) R :=
  !![1, 0, 0, 0;
     0, F.cos a, -F.sin a, 0;
     0, F.sin a, F.cos a, 0;
     0, 0, 0, 1]

/-- Homogeneous rotation matrix `Ry (a)` about the Y axis, angle in radians. -/
def Spec.Ry (F : MathFns R) (a : R) : Matrix (Fin 4) (Fin 4) R :=
  !![F.cos a, 0, F.sin a, 0;
     0, 1, 0, 0;
     -F.sin a, 0, F.cos a, 0;
     0, 0, 0, 1]

/-- Homogeneous rotation matrix `Rz (a)` about the Z axis, angle in radians. -/
def Spec.Rz (F : MathFns R) (a : R) : Matrix (Fin 4) (Fin 4) R :=
  !![F.cos a, -F.sin a, 0, 0;
     F.sin a, F.cos a, 0, 0;
     0, 0, 1, 0;
     0, 0, 0, 1]

end SpecMatrices

/-! ## Draw calls expected of `Model::drawHierarchy` -/

section SpecDraws

variable {R : Type} [Field R]

/-- What is observed of a draw call: the vertex array drawn, the index count and
the value of the shader's "model" uniform when the call is issued. -/
def DrawCall.info (d : DrawCall R) : Nat × Nat × Option (Mat4 R) :=
  (d.vertexArray, d.count, d.uniforms.mat4s "model")

/-- The draw calls expected of a hierarchy draw of `meshes` with parent transform
`P`, where `rotated` is the transform of the tagged meshes and `current` the
"model" uniform before the first mesh: a mesh named "Prop" is drawn under
`rotated` and leaves the uniform at `P`; any other mesh is drawn under the
uniform as it stands. -/
def Spec.hierarchyDraws (rotated P : Mat4 R) :
    Option (Mat4 R) → List (Mesh R) → List (Nat × Nat × Option (Mat4 R))
  | _, [] => []
  | current, mesh :: rest =>
    if mesh.meshName = "Prop" then
      (mesh.VAO, mesh.indices.length, some rotated) :: Spec.hierarchyDraws rotated P (some P) rest
    else
      (mesh.VAO, mesh.indices.length, current) :: Spec.hierarchyDraws rotated P current rest

/-- A context in which nothing has happened yet: no uniform set, no name
generated, unit 0 active, nothing bound, no command submitted. -/
def Gfx.initial : Gfx R :=
  { shader := ⟨fun _ => none, fun _ => none, fun _ => none⟩
    textureNames := 0
    vertexArrayNames := 0
    bufferNames := 0
    activeTexture := 0
    textureBinding := fun _ => 0
    vertexArrayBinding := 0
    calls := []
    cout := [] }

/-- An example mesh: one triangle without textures, with the given name and
handles `VAO = vao`, `VBO = 2 * vao - 1`, `EBO = 2 * vao`. -/
def Example.triangle (name : String) (vao : Nat) : Mesh R :=
  { vertices :=
      [⟨⟨0, 0, 0⟩, none, ⟨0, 0⟩⟩, ⟨⟨1, 0, 0⟩, none, ⟨0, 0⟩⟩, ⟨⟨0, 1, 0⟩, none, ⟨0, 0⟩⟩]
    indices := [0, 1, 2]
    textures := []
    meshMatrix := glm.mat4_1
    meshName := name
    mesh6DoF := fun _ => 0
    initRad := 0
    initRot := 0
    VAO := vao
    VBO := 2 * vao - 1
    EBO := 2 * vao }

end SpecDraws

/-! ## The node tree in depth-first pre-order, and scenes whose reads are in bounds -/

mutual
/-- The traversal order of the specification: the mesh references of a node
tree in depth-first pre-order, the node's own
references in their stored order, then those of each child subtree in child
order. -/
def Spec.preorderRefs : AiNode → List Nat
  | AiNode.mk mMeshes mChildren => mMeshes ++ Spec.preorderRefsOfList mChildren
/-- The pre-order references of a sequence of subtrees, one subtree after the other. -/
def Spec.preorderRefsOfList : List AiNode → List Nat
  | [] => []
  | child :: rest => Spec.preorderRefs child ++ Spec.preorderRefsOfList rest
end

mutual
/-- The total number of mesh references attached to the nodes of a tree. -/
def Spec.countRefs : AiNode → Nat
  | AiNode.mk mMeshes mChildren => mMeshes.length + Spec.countRefsOfList mChildren
/-- The total number of mesh references attached to the nodes of a sequence of trees. -/
def Spec.countRefsOfList : List AiNode → Nat
  | [] => 0
  | child :: rest => Spec.countRefs child + Spec.countRefsOfList rest
end

/-- Every array `Model::processMesh` reads for `mesh` is long enough: the normal
array and texture-coordinate channel 0, when present, cover all vertices, and
the material index names a material of the scene. -/
def AiMesh.InBounds {R : Type} (mesh : AiMesh R) (scene : AiScene R) : Prop :=
  (∀ normals, mesh.mNormals = some normals → mesh.mNumVertices ≤ normals.length) ∧
  (∀ channel, mesh.mTextureCoords 0 = some channel → mesh.mNumVertices ≤ channel.length) ∧
  mesh.mMaterialIndex < scene.mMaterials.length

/-- Every mesh reference of the tree under `root` names a mesh of the scene, and
that mesh is in bounds. -/
def AiScene.InBounds {R : Type} (scene : AiScene R) (root : AiNode) : Prop :=
  ∀ ref ∈ Spec.preorderRefs root,
    ∃ mesh, scene.mMeshes[ref]? = some mesh ∧ mesh.InBounds scene

/-! ## Example inputs -/

section Examples

variable {R : Type} [Field R]

/-- An example source mesh "Prop": one triangle with normals and texture
coordinates in channel 0 (and other coordinates in channel 1), material 0. -/
def Example.propMesh : AiMesh R :=
  { mName := "Prop"
    mVertices := [⟨0, 0, 0⟩, ⟨1, 0, 0⟩, ⟨0, 1, 0⟩]
    mNormals := some [⟨0, 0, 1⟩, ⟨0, 0, 2⟩, ⟨0, 3, 4⟩]
    mTextureCoords := fun k =>
      if k = 0 then some [⟨0, 0, 0⟩, ⟨1, 0, 0⟩, ⟨0, 1, 0⟩]
      else if k = 1 then some [⟨5, 5, 0⟩, ⟨6, 6, 0⟩, ⟨7, 7, 0⟩]
      else none
    mFaces := [⟨[0, 1, 2]⟩]
    mMaterialIndex := 0 }

/-- An example source mesh without a name, without normals and without texture
coordinates: a quad of two triangles, material 1. -/
def Example.quadMesh : AiMesh R :=
  { mName := ""
    mVertices := [⟨0, 0, 0⟩, ⟨1, 0, 0⟩, ⟨1, 1, 0⟩, ⟨0, 1, 0⟩]
    mNormals := none
    mTextureCoords := fun _ => none
    mFaces := [⟨[0, 1, 2]⟩, ⟨[2, 3, 0]⟩]
    mMaterialIndex := 1 }

/-- An example scene: the root carries the quad, its first child the prop, its
second child carries nothing and has a child carrying the quad again.  Material
0 has one diffuse texture, material 1 none. -/
def Example.scene : AiScene R :=
  { mFlags := 0
    mRootNode := some (AiNode.mk [1] [AiNode.mk [0] [], AiNode.mk [] [AiNode.mk [1] []]])
    mMeshes := [Example.propMesh, Example.quadMesh]
    mMaterials :=
      [⟨fun type => if type = AiTextureType.DIFFUSE then ["wood.png"] else []⟩, ⟨fun _ => []⟩] }

/-- Example files: the scene above at "models/plane.obj", no other scene, and no
decodable image. -/
def Example.files : Files R :=
  { ReadFile := fun path => if path = "models/plane.obj" then some Example.scene else none
    GetErrorString := fun _ => "Unable to open file"
    stbi_load := fun _ => none }

end Examples

/-! ## The scene driver `main.cpp`: material presets of the GUI window -/

/-- Material index `Water` of the anonymous enumeration. -/
def Water : Int := 0
/-- Material index `Air`. -/
def Air : Int := 1
/-- Material index `Metal`. -/
def Metal : Int := 2
/-- Material index `Plastic`. -/
def Plastic : Int := 3
/-- Dispersion index `None`. -/
def None : Int := 0
/-- Dispersion index `Weak`. -/
def Weak : Int := 1
/-- Dispersion index `Strong`. -/
def Strong : Int := 2

/-- The global variables of `main.cpp` that the GUI window reads and writes. -/
structure Globals (R : Type) where
  etaR : R
  etaG : R
  etaB : R
  etaAll : R
  etaAllPrev : R
  F0 : R
  imguiPresets : Bool
  selectedMaterial : Int
  selectedDispersion : Int
  dispersionAmount : R

/-- What the widgets of the immediate-mode GUI library do to the variable they
are given, this frame: the value the variable holds after the call, from the
widget's label and the value before (the user may or may not have acted). -/
structure ImGui (R : Type) where
  Checkbox : String → Bool → Bool
  Combo : String → Int → Int
  SliderFloat : String → R → R → R → R

section Presets

variable {R : Type} [Field R]

/-- The initialisers of the globals. -/
def Globals.initial : Globals R :=
  { etaR := 0.8
    etaG := 0.8
    etaB := 0.8
    etaAll := 0.8
    etaAllPrev := 0.8
    F0 := 0.02
    imguiPresets := false
    selectedMaterial := Water
    selectedDispersion := None
    dispersionAmount := 0.0 }

/-- The function `updateMaterialProperties (materialIndex)`. -/
def updateMaterialProperties (materialIndex : Int) (s : Globals R) : Globals R :=
  if materialIndex = Water then
    { s with
      etaR := 0.75 - s.dispersionAmount
      etaG := 0.75
      etaB := 0.75 + s.dispersionAmount
      F0 := 0.02 }
  else if materialIndex = Air then
    { s with
      etaR := 1.0 - s.dispersionAmount
      etaG := 1.0
      etaB := 1.0 + s.dispersionAmount
      F0 := 0.01 }
  else if materialIndex = Metal then
    { s with
      etaR := 0.0
      etaG := 0.0
      etaB := 0.0
      F0 := 1.0 }
  else if materialIndex = Plastic then
    { s with
      etaR := 0.95 - s.dispersionAmount
      etaG := 0.95
      etaB := 0.95 + s.dispersionAmount
      F0 := 0.05 }
  else
    { s with
      etaR := 0.8 - s.dispersionAmount
      etaG := 0.8
      etaB := 0.8 + s.dispersionAmount
      F0 := 0.02 }

/-- The function `updateDispersionStrength (strengthIndex)`. -/
def updateDispersionStrength (strengthIndex : Int) (s : Globals R) : Globals R :=
  if strengthIndex = None then
    { s with dispersionAmount := 0.0 }
  else if strengthIndex = Weak then
    { s with dispersionAmount := 0.01 }
  else if strengthIndex = Strong then
    { s with dispersionAmount := 0.05 }
  else
    { s with dispersionAmount := 0.0 }

/-- The function `drawIMGUIWindow ()`, as far as the globals go: the window
set-up, the text lines and the rendering of the window write none of them. -/
def drawIMGUIWindow (ui : ImGui R) (s : Globals R) : Globals R :=
  let s := { s with imguiPresets := ui.Checkbox "Presets" s.imguiPresets }
  if !s.imguiPresets then
    let s := { s with etaR := ui.SliderFloat "Eta Red" s.etaR 0.0 1.0 }
    let s := { s with etaG := ui.SliderFloat "Eta Green" s.etaG 0.0 1.0 }
    let s := { s with etaB := ui.SliderFloat "Eta Blue" s.etaB 0.0 1.0 }
    let s := { s with F0 := ui.SliderFloat "F0" s.F0 0.0 1.0 }
    { s with etaAll := ui.SliderFloat "Eta All" s.etaAll 0.0 1.0 }
  else
    let s := { s with selectedMaterial := ui.Combo "Material" s.selectedMaterial }
    let s := updateMaterialProperties s.selectedMaterial s
    let s := { s with selectedDispersion := ui.Combo "Dispersion Strength" s.selectedDispersion }
    updateDispersionStrength s.selectedDispersion s

/-- The base refraction ratio of a non-metal material index: the value
`updateMaterialProperties` gives the green channel. -/
def Spec.base (m : Int) : R :=
  if m = Water then 0.75 else if m = Air then 1.0 else if m = Plastic then 0.95 else 0.8

/-- The dispersion amount of a dispersion index: 0 for None, 0.01 for Weak,
0.05 for Strong, 0 for any other index. -/
def Spec.amount (d : Int) : R :=
  if d = None then 0 else if d = Weak then 0.01 else if d = Strong then 0.05 else 0

/-- A GUI in which the user touches nothing: every widget leaves its variable. -/
def Example.idle : ImGui R :=
  { Checkbox := fun _ v => v
    Combo := fun _ v => v
    SliderFloat := fun _ v _ _ => v }

/-- A GUI in which the user ticks "Presets" and picks entry `m` of the material
list and entry `d` of the dispersion list. -/
def Example.pick (m d : Int) : ImGui R :=
  { Checkbox := fun _ _ => true
    Combo := fun label _ => if label = "Material" then m else d
    SliderFloat := fun _ v _ _ => v }

end Presets

/-! ## The commands expected of the texture loop, and example images -/

section SpecTextures

variable {R : Type}

/-- The commands the texture loop is expected to submit for the textures from
unit `i` on: per texture, select its unit, set the sampler uniform
"textureDiffuse" followed by the digits of the unit to the unit, bind the
texture's handle. -/
def Spec.bindCalls : Nat → List Texture → List (GLCall R)
  | _, [] => []
  | i, texture :: rest =>
    GLCall.activeTexture i :: GLCall.setInt ("textureDiffuse" ++ toString i) (Int.ofNat i) ::
      GLCall.bindTexture texture.id :: Spec.bindCalls (i + 1) rest

/-- Example files with decodable images: "grey.png" has one channel,
"grey_alpha.png" two, "wood.png" three, "leaf.png" four; each is 1x1. -/
def Example.imageFiles : Files R :=
  { ReadFile := fun _ => none
    GetErrorString := fun _ => "Unable to open file"
    stbi_load := fun path =>
      if path = "grey.png" then some ⟨1, 1, 1, [128]⟩
      else if path = "grey_alpha.png" then some ⟨1, 1, 2, [128, 255]⟩
      else if path = "wood.png" then some ⟨1, 1, 3, [120, 80, 40]⟩
      else if path = "leaf.png" then some ⟨1, 1, 4, [0, 160, 0, 255]⟩
      else none }

end SpecTextures

/-! ## Lemmas on glm -/

section GlmLemmas

variable {R : Type} [Field R]

theorem toMatrix_mat4_1 : (glm.mat4_1 : Mat4 R).toMatrix = 1 := by
  ext i j
  fin_cases i <;> fin_cases j <;> simp [Mat4.toMatrix, glm.mat4_1, Matrix.vecHead, Matrix.vecTail]

theorem toMatrix_translate (m : Mat4 R) (v : Vec3 R) :
    (glm.translate m v).toMatrix = m.toMatrix * Spec.T v.x v.y v.z := by
  ext i j
  fin_cases i <;> fin_cases j <;>
    simp [Mat4.toMatrix, glm.translate, Spec.T, Matrix.mul_apply, Fin.sum_univ_succ,
      Vec4.add, Vec4.scale] <;>
    ring

theorem normalize_x (F : MathFns R) (hsqrt : F.sqrt 1 = 1) :
    glm.normalize F (⟨1, 0, 0⟩ : Vec3 R) = ⟨1, 0, 0⟩ := by
  simp [glm.normalize, glm.inversesqrt, glm.dot, Vec3.scale, hsqrt]

theorem normalize_y (F : MathFns R) (hsqrt : F.sqrt 1 = 1) :
    glm.normalize F (⟨0, 1, 0⟩ : Vec3 R) = ⟨0, 1, 0⟩ := by
  simp [glm.normalize, glm.inversesqrt, glm.dot, Vec3.scale, hsqrt]

theorem normalize_z (F : MathFns R) (hsqrt : F.sqrt 1 = 1) :
    glm.normalize F (⟨0, 0, 1⟩ : Vec3 R) = ⟨0, 0, 1⟩ := by
  simp [glm.normalize, glm.inversesqrt, glm.dot, Vec3.scale, hsqrt]

theorem toMatrix_rotate_x (F : MathFns R) (hsqrt : F.sqrt 1 = 1) (m : Mat4 R) (a : R) :
    (glm.rotate F m a ⟨1, 0, 0⟩).toMatrix = m.toMatrix * Spec.Rx F a := by
  simp only [glm.rotate, normalize_x F hsqrt, Vec3.scale, Vec3.smul, Vec4.add, Vec4.scale,
    Mat4.toMatrix,
    Spec.Rx]
  ext i j
  fin_cases i <;> fin_cases j <;> simp [Matrix.mul_apply, Fin.sum_univ_succ]

theorem toMatrix_rotate_y (F : MathFns R) (hsqrt : F.sqrt 1 = 1) (m : Mat4 R) (a : R) :
    (glm.rotate F m a ⟨0, 1, 0⟩).toMatrix = m.toMatrix * Spec.Ry F a := by
  simp only [glm.rotate, normalize_y F hsqrt, Vec3.scale, Vec3.smul, Vec4.add, Vec4.scale,
    Mat4.toMatrix,
    Spec.Ry]
  ext i j
  fin_cases i <;> fin_cases j <;> simp [Matrix.mul_apply, Fin.sum_univ_succ]

theorem toMatrix_rotate_z (F : MathFns R) (hsqrt : F.sqrt 1 = 1) (m : Mat4 R) (a : R) :
    (glm.rotate F m a ⟨0, 0, 1⟩).toMatrix = m.toMatrix * Spec.Rz F a := by
  simp only [glm.rotate, normalize_z F hsqrt, Vec3.scale, Vec3.smul, Vec4.add, Vec4.scale,
    Mat4.toMatrix,
    Spec.Rz]
  ext i j
  fin_cases i <;> fin_cases j <;> simp [Matrix.mul_apply, Fin.sum_univ_succ]

end GlmLemmas

/-! ## `Mesh::updateModelMatrix` -/

section UpdateModelMatrix

variable {R : Type} [Field R]

theorem rotate_zero (F : MathFns R) (hcos : F.cos 0 = 1) (hsin : F.sin 0 = 0) (m : Mat4 R)
    (v : Vec3 R) : glm.rotate F m 0 v = m := by
  obtain ⟨⟨a0, a1, a2, a3⟩, ⟨b0, b1, b2, b3⟩, ⟨c0, c1, c2, c3⟩, d⟩ := m
  simp [glm.rotate, Vec3.scale, Vec3.smul, Vec4.add, Vec4.scale, hcos, hsin]

theorem updateModelMatrix_toMatrix (F : MathFns R) (hsqrt : F.sqrt 1 = 1) (mesh : Mesh R) :
    (Mesh.updateModelMatrix F mesh).meshMatrix.toMatrix =
      1 * Spec.T (mesh.mesh6DoF tX) (mesh.mesh6DoF tY) (mesh.mesh6DoF tZ) *
        Spec.Rx F (mesh.mesh6DoF rX) * Spec.Ry F (mesh.mesh6DoF rY) *
          Spec.Rz F (mesh.mesh6DoF rZ) := by
  simp only [Mesh.updateModelMatrix, toMatrix_rotate_z F hsqrt, toMatrix_rotate_y F hsqrt,
    toMatrix_rotate_x F hsqrt, toMatrix_translate, toMatrix_mat4_1]

end UpdateModelMatrix

/-! ## Drawing -/

section DrawLemmas

variable {R : Type}

theorem drawCalls_append (a b : List (GLCall R)) :
    drawCalls (a ++ b) = drawCalls a ++ drawCalls b := by
  induction a with
  | nil => rfl
  | cons c cs ih => cases c <;> simp [drawCalls, ih]

/-- The texture loop submits no draw call and leaves the matrix uniforms and the
vertex array binding alone. -/
theorem bindTextures_frame (ts : List Texture) (i : Nat) (g : Gfx R) :
    (forEachFrom Mesh.bindTextureStep i ts g).shader.mat4s = g.shader.mat4s ∧
    (forEachFrom Mesh.bindTextureStep i ts g).vertexArrayBinding = g.vertexArrayBinding ∧
    drawCalls (forEachFrom Mesh.bindTextureStep i ts g).calls = drawCalls g.calls := by
  induction ts generalizing i g with
  | nil => simp [forEachFrom]
  | cons t ts ih =>
    obtain ⟨h1, h2, h3⟩ := ih (i + 1) (Mesh.bindTextureStep i t g)
    simp only [forEachFrom, h1, h2, h3]
    simp [Mesh.bindTextureStep, glActiveTexture, Shader.setInt, glBindTexture, Gfx.submit,
      drawCalls_append, drawCalls]

/-- The effect of `Mesh::draw` on the draw calls and on the matrix uniforms. -/
theorem Mesh.draw_effect (mesh : Mesh R) (g : Gfx R) :
    (Mesh.draw mesh g).shader.mat4s = g.shader.mat4s ∧
    ∃ d, drawCalls (Mesh.draw mesh g).calls = drawCalls g.calls ++ [d] ∧
      d.vertexArray = mesh.VAO ∧ d.count = mesh.indices.length ∧
      d.uniforms.mat4s = g.shader.mat4s := by
  obtain ⟨h1, _, h3⟩ := bindTextures_frame mesh.textures 0 g
  refine ⟨?_, ⟨mesh.indices.length, mesh.VAO,
    (forEach Mesh.bindTextureStep mesh.textures g).shader,
    (forEach Mesh.bindTextureStep mesh.textures g).textureBinding⟩, ?_, rfl, rfl, ?_⟩
  · simpa [Mesh.draw, glActiveTexture, glBindVertexArray, glDrawElements, Gfx.submit, forEach]
      using h1
  · simp [Mesh.draw, glActiveTexture, glBindVertexArray, glDrawElements, Gfx.submit, forEach,
      drawCalls_append, drawCalls, h3]
  · simpa [forEach] using h1

/-- The effect of `Mesh::drawHierarchy` on the draw calls, on the "model"
uniform and on its reference arguments. -/
theorem Mesh.drawHierarchy_effect [Field R] (F : MathFns R) (mesh : Mesh R) (g : Gfx R) (P : Mat4 R)
    (rotZ : R) :
    (Mesh.drawHierarchy F mesh g P rotZ).1.shader.mat4s "model" = some P ∧
    (Mesh.drawHierarchy F mesh g P rotZ).2 = (P, rotZ) ∧
    ∃ d, drawCalls (Mesh.drawHierarchy F mesh g P rotZ).1.calls = drawCalls g.calls ++ [d] ∧
      d.vertexArray = mesh.VAO ∧ d.count = mesh.indices.length ∧
      d.uniforms.mat4s "model" = some (glm.rotate F P (glm.radians rotZ) ⟨0, 0, 1⟩) := by
  obtain ⟨h1, _, h3⟩ := bindTextures_frame mesh.textures 0
    (Shader.setMat4 "model" (glm.rotate F P (glm.radians rotZ) ⟨0, 0, 1⟩) g)
  refine ⟨?_, rfl, ⟨mesh.indices.length, mesh.VAO,
    (forEach Mesh.bindTextureStep mesh.textures
      (Shader.setMat4 "model" (glm.rotate F P (glm.radians rotZ) ⟨0, 0, 1⟩) g)).shader,
    (forEach Mesh.bindTextureStep mesh.textures
      (Shader.setMat4 "model" (glm.rotate F P (glm.radians rotZ) ⟨0, 0, 1⟩) g)).textureBinding⟩,
    ?_, rfl, rfl, ?_⟩
  · simp [Mesh.drawHierarchy, Shader.setMat4, Gfx.submit]
  · have h3u := h3
    simp only [Shader.setMat4, Gfx.submit, drawCalls_append, drawCalls, List.append_nil] at h3u
    simp [Mesh.drawHierarchy, forEach, Shader.setMat4, glActiveTexture, glBindVertexArray,
      glDrawElements, Gfx.submit, drawCalls_append, drawCalls, h3u]
  · simp only [forEach, h1]
    simp [Shader.setMat4, Gfx.submit]

/-- The effect of the loop of `Model::drawHierarchy` on the draw calls and on its
reference arguments. -/
theorem hierarchyLoop_effect [Field R] (F : MathFns R) (P : Mat4 R) (rotZ : R)
    (meshes : List (Mesh R)) (i : Nat) (g : Gfx R) :
    (forEachFrom (fun _ mesh s => Model.drawHierarchy.step F mesh s) i meshes (g, P, rotZ)).2 =
      (P, rotZ) ∧
    ∃ ds,
      drawCalls
          (forEachFrom (fun _ mesh s => Model.drawHierarchy.step F mesh s) i meshes
            (g, P, rotZ)).1.calls = drawCalls g.calls ++ ds ∧
      ds.map DrawCall.info =
        Spec.hierarchyDraws (glm.rotate F P (glm.radians rotZ) ⟨0, 0, 1⟩) P
          (g.shader.mat4s "model") meshes := by
  induction meshes generalizing i g with
  | nil => exact ⟨rfl, [], by simp [forEachFrom], rfl⟩
  | cons mesh rest ih =>
    by_cases hname : mesh.meshName = "Prop"
    · obtain ⟨hu, h2, d, hd, hv, hc, hm⟩ := Mesh.drawHierarchy_effect F mesh g P rotZ
      have hstep : Model.drawHierarchy.step F mesh (g, P, rotZ) =
          ((Mesh.drawHierarchy F mesh g P rotZ).1, P, rotZ) := by
        simp only [Model.drawHierarchy.step, hname, if_true]
        exact Prod.ext rfl h2
      obtain ⟨hr, ds, hds, hinfo⟩ := ih (i + 1) (Mesh.drawHierarchy F mesh g P rotZ).1
      simp only [forEachFrom, hstep]
      refine ⟨hr, d :: ds, ?_, ?_⟩
      · rw [hds, hd]; simp
      · simp [Spec.hierarchyDraws, hname, hinfo, hu, DrawCall.info, hv, hc, hm]
    · obtain ⟨hu, d, hd, hv, hc, hm⟩ := Mesh.draw_effect mesh g
      have hstep : Model.drawHierarchy.step F mesh (g, P, rotZ) = (Mesh.draw mesh g, P, rotZ) := by
        simp only [Model.drawHierarchy.step, hname, if_false]
      obtain ⟨hr, ds, hds, hinfo⟩ := ih (i + 1) (Mesh.draw mesh g)
      simp only [forEachFrom, hstep]
      refine ⟨hr, d :: ds, ?_, ?_⟩
      · rw [hds, hd]; simp
      · simp [Spec.hierarchyDraws, hname, hinfo, hu, DrawCall.info, hv, hc, hm]

/-- Entry `k` of the expected draws, for an untagged mesh that either follows a
tagged one or is drawn from a state whose "model" uniform is `P`. -/
theorem hierarchyDraws_untagged (rotated P : Mat4 R) (meshes : List (Mesh R)) (k : Nat)
    (mesh : Mesh R) (current : Option (Mat4 R)) (hk : meshes[k]? = some mesh)
    (hname : mesh.meshName ≠ "Prop")
    (hentry : current = some P ∨
      ∃ j tagged, j < k ∧ meshes[j]? = some tagged ∧ tagged.meshName = "Prop") :
    (Spec.hierarchyDraws rotated P current meshes)[k]? =
      some (mesh.VAO, mesh.indices.length, some P) := by
  induction meshes generalizing k current with
  | nil => simp at hk
  | cons m rest ih =>
    cases k with
    | zero =>
      simp only [List.getElem?_cons_zero, Option.some.injEq] at hk
      subst hk
      rcases hentry with h | ⟨j, _, hj, _⟩
      · simp [Spec.hierarchyDraws, hname, h]
      · omega
    | succ k =>
      simp only [List.getElem?_cons_succ] at hk
      by_cases hm : m.meshName = "Prop"
      · simp only [Spec.hierarchyDraws, hm, if_true, List.getElem?_cons_succ]
        exact ih k (some P) hk (Or.inl rfl)
      · simp only [Spec.hierarchyDraws, hm, if_false, List.getElem?_cons_succ]
        refine ih k current hk ?_
        rcases hentry with h | ⟨j, tagged, hj, hjm, ht⟩
        · exact Or.inl h
        · cases j with
          | zero =>
            simp only [List.getElem?_cons_zero, Option.some.injEq] at hjm
            subst hjm
            exact absurd ht hm
          | succ j =>
            simp only [List.getElem?_cons_succ] at hjm
            exact Or.inr ⟨j, tagged, by omega, hjm, ht⟩

/-- One expected draw per mesh, in list order, of that mesh's vertex array and
index count. -/
theorem hierarchyDraws_handles (rotated P : Mat4 R) (meshes : List (Mesh R))
    (current : Option (Mat4 R)) :
    (Spec.hierarchyDraws rotated P current meshes).map (fun e => (e.1, e.2.1)) =
      meshes.map fun mesh => (mesh.VAO, mesh.indices.length) := by
  induction meshes generalizing current with
  | nil => rfl
  | cons m rest ih =>
    by_cases hm : m.meshName = "Prop" <;> simp [Spec.hierarchyDraws, hm, ih]

/-- The loop of `Model::drawHierarchy` as a fold over the meshes in which every
tagged mesh is drawn with the parent transform and rotation given to the model. -/
theorem hierarchyLoop_eq_foldl [Field R] (F : MathFns R) (P : Mat4 R) (rotZ : R)
    (meshes : List (Mesh R)) (i : Nat) (g : Gfx R) :
    (forEachFrom (fun _ mesh s => Model.drawHierarchy.step F mesh s) i meshes (g, P, rotZ)).1 =
      meshes.foldl
        (fun g mesh =>
          if mesh.meshName = "Prop" then (Mesh.drawHierarchy F mesh g P rotZ).1
          else Mesh.draw mesh g) g := by
  induction meshes generalizing i g with
  | nil => rfl
  | cons mesh rest ih =>
    by_cases hname : mesh.meshName = "Prop"
    · have hstep : Model.drawHierarchy.step F mesh (g, P, rotZ) =
          ((Mesh.drawHierarchy F mesh g P rotZ).1, P, rotZ) := by
        simp only [Model.drawHierarchy.step, hname, if_true]
        exact Prod.ext rfl (Mesh.drawHierarchy_effect F mesh g P rotZ).2.1
      simp only [forEachFrom, hstep, ih, List.foldl_cons, hname, if_true]
    · have hstep : Model.drawHierarchy.step F mesh (g, P, rotZ) = (Mesh.draw mesh g, P, rotZ) := by
        simp only [Model.drawHierarchy.step, hname, if_false]
      simp only [forEachFrom, hstep, ih, List.foldl_cons, hname, if_false]

end DrawLemmas

/-! ## Loading: the loops of `Model::processMesh` -/

section LoadLemmas

variable {R : Type}

theorem pushLoop_eq_append {α : Type} (xs : List α) (i : Nat) (acc : List α) :
    forEachFrom (fun _ x acc => acc ++ [x]) i xs acc = acc ++ xs := by
  induction xs generalizing i acc with
  | nil => simp [forEachFrom]
  | cons x xs ih => simp [forEachFrom, ih]

theorem faceLoop_from (faces : List AiFace) (i : Nat) (acc : List Nat) :
    forEachFrom
        (fun _ face indices =>
          forEach (fun _ index indices => indices ++ [index]) face.mIndices indices)
        i faces acc = acc ++ (faces.map AiFace.mIndices).flatten := by
  induction faces generalizing i acc with
  | nil => simp [forEachFrom]
  | cons face faces ih =>
    simp only [forEachFrom]
    rw [ih]
    simp [forEach, pushLoop_eq_append]

/-- The face loop yields the concatenation of the faces' index lists. -/
theorem faceLoop_eq_flatten (faces : List AiFace) :
    Model.processMesh.faceLoop faces = (faces.map AiFace.mIndices).flatten := by
  exact (faceLoop_from faces 0 []).trans (by simp)

/-- In a concatenation of triangles, index `k` of face `f` sits at `3 * f + k`. -/
theorem flatten_triangles (faces : List AiFace)
    (h : ∀ face ∈ faces, face.mIndices.length = 3) :
    ((faces.map AiFace.mIndices).flatten).length = 3 * faces.length ∧
    ∀ f k face, faces[f]? = some face → k < 3 →
      ((faces.map AiFace.mIndices).flatten)[3 * f + k]? = face.mIndices[k]? := by
  induction faces with
  | nil => simp
  | cons face0 rest ih =>
    have h0 : face0.mIndices.length = 3 := h face0 (List.mem_cons_self _ _)
    obtain ⟨hlen, hidx⟩ := ih fun face hf => h face (List.mem_cons_of_mem _ hf)
    refine ⟨?_, ?_⟩
    · simp only [List.map_cons, List.flatten_cons, List.length_append, h0, hlen,
        List.length_cons]
      omega
    · intro f k face hf hk
      cases f with
      | zero =>
        simp only [List.getElem?_cons_zero, Option.some.injEq] at hf
        subst hf
        simp only [List.map_cons, List.flatten_cons, Nat.mul_zero, Nat.zero_add]
        exact List.getElem?_append_left (by omega)
      | succ f =>
        simp only [List.getElem?_cons_succ] at hf
        simp only [List.map_cons, List.flatten_cons]
        rw [List.getElem?_append_right (by omega), h0, ← hidx f k face hf hk]
        congr 1
        omega

/-- What a loop that builds one element per entry and pushes it returns. -/
theorem pushLoopM_spec {α β : Type} (f : Nat → α → Option β) (xs : List α) (i : Nat)
    (acc vs : List β)
    (h : forEachFromM (fun i x acc => (f i x).map fun v => acc ++ [v]) i xs acc = some vs) :
    ∃ new, vs = acc ++ new ∧ new.length = xs.length ∧
      ∀ k x, xs[k]? = some x → ∃ v, new[k]? = some v ∧ f (i + k) x = some v := by
  induction xs generalizing i acc with
  | nil =>
    simp only [forEachFromM, Option.some.injEq] at h
    exact ⟨[], by simp [h], rfl, by simp⟩
  | cons x xs ih =>
    simp only [forEachFromM] at h
    cases hx : f i x with
    | none => simp [hx] at h
    | some v =>
      simp only [hx, Option.map_some', Option.some_bind] at h
      obtain ⟨new, hvs, hlen, hnew⟩ := ih (i + 1) (acc ++ [v]) h
      refine ⟨v :: new, by simp [hvs], by simp [hlen], ?_⟩
      intro k y hk
      cases k with
      | zero =>
        simp only [List.getElem?_cons_zero, Option.some.injEq] at hk
        subst hk
        exact ⟨v, by simp, hx⟩
      | succ k =>
        simp only [List.getElem?_cons_succ] at hk
        obtain ⟨w, hw, hf⟩ := hnew k y hk
        exact ⟨w, by simpa using hw, by rw [← hf]; congr 1; omega⟩

/-- A pushing loop returns when every element can be built. -/
theorem pushLoopM_some {α β : Type} (f : Nat → α → Option β) (xs : List α) (i : Nat)
    (acc : List β) (h : ∀ k x, xs[k]? = some x → ∃ v, f (i + k) x = some v) :
    ∃ vs, forEachFromM (fun i x acc => (f i x).map fun v => acc ++ [v]) i xs acc = some vs := by
  induction xs generalizing i acc with
  | nil => exact ⟨acc, rfl⟩
  | cons x xs ih =>
    obtain ⟨v, hv⟩ := h 0 x (by simp)
    simp only [Nat.add_zero] at hv
    simp only [forEachFromM, hv, Option.map_some', Option.some_bind]
    refine ih (i + 1) (acc ++ [v]) ?_
    intro k y hk
    obtain ⟨w, hw⟩ := h (k + 1) y (by simpa using hk)
    exact ⟨w, by rw [← hw]; congr 1; omega⟩

/-- The `Vertex` built for source vertex `i`. -/
theorem vertex_spec (mesh : AiMesh R) [Field R] (i : Nat) (p : Vec3 R) (v : Vertex R)
    (h : Model.processMesh.vertex mesh i p = some v) :
    v.Position = p ∧
    (mesh.HasNormals = true →
      ∃ normals n, mesh.mNormals = some normals ∧ normals[i]? = some n ∧ v.Normal = some n) ∧
    (mesh.HasNormals = false → v.Normal = none) ∧
    (mesh.mTextureCoords 0 = none → v.TexCoords = ⟨0, 0⟩) ∧
    ∀ channel, mesh.mTextureCoords 0 = some channel →
      ∃ t, channel[i]? = some t ∧ v.TexCoords = ⟨t.x, t.y⟩ := by
  unfold Model.processMesh.vertex at h
  cases hn : mesh.HasNormals <;> cases ht : mesh.mTextureCoords 0 <;>
    simp only [hn, ht, Bool.false_eq_true, if_false, if_true, bind, pure, Option.bind,
      Option.some_bind] at h
  · simp only [Option.some.injEq] at h
    subst h
    simp
  · rename_i channel
    cases hc : channel[i]? with
    | none => simp [hc] at h
    | some t =>
      simp only [hc, Option.some.injEq] at h
      subst h
      simp [hc]
  · cases hnorm : mesh.mNormals with
    | none => simp [hnorm] at h
    | some normals =>
      cases hni : normals[i]? with
      | none => simp [hnorm, hni] at h
      | some n =>
        simp only [hnorm, hni, Option.some.injEq] at h
        subst h
        simp [hni]
  · rename_i channel
    cases hnorm : mesh.mNormals with
    | none => simp [hnorm] at h
    | some normals =>
      cases hni : normals[i]? with
      | none => simp [hnorm, hni] at h
      | some n =>
        cases hc : channel[i]? with
        | none => simp [hnorm, hni, hc] at h
        | some t =>
          simp only [hnorm, hni, hc, Option.some.injEq] at h
          subst h
          simp [hni, hc]

/-- In a mesh whose reads are in bounds every `Vertex` can be built. -/
theorem vertex_some [Field R] (mesh : AiMesh R) (scene : AiScene R) (hb : mesh.InBounds scene)
    (i : Nat) (p : Vec3 R) (hi : mesh.mVertices[i]? = some p) :
    ∃ v, Model.processMesh.vertex mesh i p = some v := by
  obtain ⟨hnormals, hchannel, _⟩ := hb
  have hlt : i < mesh.mVertices.length := by
    rcases Nat.lt_or_ge i mesh.mVertices.length with h | h
    · exact h
    · rw [List.getElem?_eq_none h] at hi
      exact absurd hi (by simp)
  have hpos : 0 < mesh.mNumVertices := by
    unfold AiMesh.mNumVertices
    omega
  unfold Model.processMesh.vertex
  cases hnorm : mesh.mNormals with
  | none =>
    cases ht : mesh.mTextureCoords 0 with
    | none => simp [AiMesh.HasNormals, hnorm]
    | some channel =>
      have hc : i < channel.length := by
        have := hchannel channel ht
        unfold AiMesh.mNumVertices at this
        omega
      simp [AiMesh.HasNormals, hnorm, List.getElem?_eq_getElem hc]
  | some normals =>
    have hn : i < normals.length := by
      have := hnormals normals hnorm
      unfold AiMesh.mNumVertices at this
      omega
    cases ht : mesh.mTextureCoords 0 with
    | none => simp [AiMesh.HasNormals, hnorm, hpos, List.getElem?_eq_getElem hn]
    | some channel =>
      have hc : i < channel.length := by
        have := hchannel channel ht
        unfold AiMesh.mNumVertices at this
        omega
      simp [AiMesh.HasNormals, hnorm, hpos, List.getElem?_eq_getElem hn,
        List.getElem?_eq_getElem hc]

/-- What `Model::processMesh` returns, when it returns. -/
theorem processMesh_spec [Field R] (W : Files R) (mesh : AiMesh R) (scene : AiScene R)
    (g g' : Gfx R) (m : Mesh R) (h : Model.processMesh W mesh scene g = some (m, g')) :
    Model.processMesh.vertexLoop mesh = some m.vertices ∧
    m.indices = Model.processMesh.faceLoop mesh.mFaces ∧
    m.meshName = mesh.mName ∧
    m.meshMatrix = glm.mat4_1 ∧
    ∃ material, scene.mMaterials[mesh.mMaterialIndex]? = some material ∧
      m.textures =
        (Model.loadMaterialTextures W material AiTextureType.DIFFUSE g).1 := by
  unfold Model.processMesh at h
  cases hv : Model.processMesh.vertexLoop mesh with
  | none => simp [hv] at h
  | some vertices =>
    cases hm : scene.mMaterials[mesh.mMaterialIndex]? with
    | none => simp [hv, hm] at h
    | some material =>
      simp only [hv, hm, bind, pure, Option.bind, Option.some.injEq, Prod.mk.injEq] at h
      obtain ⟨h1, _⟩ := h
      subst h1
      by_cases hname : mesh.mName = "" <;> simp [hname, Mesh.new]

/-- The procedure `Model::processMesh` returns on a mesh whose reads are in bounds. -/
theorem processMesh_some [Field R] (W : Files R) (mesh : AiMesh R) (scene : AiScene R)
    (hb : mesh.InBounds scene) (g : Gfx R) :
    ∃ m g', Model.processMesh W mesh scene g = some (m, g') := by
  obtain ⟨vertices, hv⟩ : ∃ vs, Model.processMesh.vertexLoop mesh = some vs :=
    pushLoopM_some (Model.processMesh.vertex mesh) mesh.mVertices 0 []
      (fun k x hk => vertex_some mesh scene hb (0 + k) x (by simpa using hk))
  have hmat : mesh.mMaterialIndex < scene.mMaterials.length := hb.2.2
  unfold Model.processMesh
  simp only [hv, List.getElem?_eq_getElem hmat, bind, pure, Option.bind]
  exact ⟨_, _, rfl⟩

/-- Two source meshes that differ only in arrays no vertex is built from are
converted alike. -/
theorem processMesh_congr [Field R] (W : Files R) (mesh mesh' : AiMesh R) (scene : AiScene R)
    (g : Gfx R) (hname : mesh'.mName = mesh.mName) (hverts : mesh'.mVertices = mesh.mVertices)
    (hfaces : mesh'.mFaces = mesh.mFaces) (hmat : mesh'.mMaterialIndex = mesh.mMaterialIndex)
    (hvertex : ∀ i p, Model.processMesh.vertex mesh' i p = Model.processMesh.vertex mesh i p) :
    Model.processMesh W mesh' scene g = Model.processMesh W mesh scene g := by
  have hfun : Model.processMesh.vertex mesh' = Model.processMesh.vertex mesh :=
    funext fun i => funext fun p => hvertex i p
  unfold Model.processMesh Model.processMesh.vertexLoop
  rw [hname, hverts, hfaces, hmat, hfun]

/-- Only channel 0 of the texture coordinates enters a `Vertex`. -/
theorem vertex_channels [Field R] (mesh : AiMesh R)
    (channels : Fin 8 → Option (List (Vec3 R))) (h0 : channels 0 = mesh.mTextureCoords 0)
    (i : Nat) (p : Vec3 R) :
    Model.processMesh.vertex { mesh with mTextureCoords := channels } i p =
      Model.processMesh.vertex mesh i p := by
  unfold Model.processMesh.vertex
  simp only [h0, AiMesh.HasNormals, AiMesh.mNumVertices]

/-- Without declared normals the normal array does not enter a `Vertex`. -/
theorem vertex_normals [Field R] (mesh : AiMesh R) (normals : Option (List (Vec3 R)))
    (h : mesh.HasNormals = false)
    (hother : AiMesh.HasNormals { mesh with mNormals := normals } = false)
    (i : Nat) (p : Vec3 R) :
    Model.processMesh.vertex { mesh with mNormals := normals } i p =
      Model.processMesh.vertex mesh i p := by
  unfold Model.processMesh.vertex
  simp only [h, hother, Bool.false_eq_true, if_false]

end LoadLemmas

/-! ## Loading: the traversal of `Model::processNode` -/

section TraversalLemmas

variable {R : Type}

theorem forEachFromM_index_free {α σ : Type} (f : α → σ → Option σ) (xs : List α) (i j : Nat)
    (s : σ) :
    forEachFromM (fun _ x s => f x s) i xs s = forEachFromM (fun _ x s => f x s) j xs s := by
  induction xs generalizing i j s with
  | nil => rfl
  | cons x xs ih =>
    simp only [forEachFromM]
    cases f x s with
    | none => rfl
    | some s1 => exact ih (i + 1) (j + 1) s1

theorem forEachFromM_append {α σ : Type} (f : α → σ → Option σ) (xs ys : List α) (i : Nat)
    (s : σ) :
    forEachFromM (fun _ x s => f x s) i (xs ++ ys) s =
      (forEachFromM (fun _ x s => f x s) i xs s).bind (forEachFromM (fun _ x s => f x s) i ys) := by
  induction xs generalizing i s with
  | nil => rfl
  | cons x xs ih =>
    simp only [List.cons_append, forEachFromM]
    cases f x s with
    | none => rfl
    | some s1 =>
      simp only [Option.some_bind]
      have hfun : forEachFromM (fun _ x s => f x s) (i + 1) ys =
          forEachFromM (fun _ x s => f x s) i ys :=
        funext fun s => forEachFromM_index_free f ys (i + 1) i s
      exact (ih (i + 1) s1).trans (by rw [hfun])

mutual
/-- The recursion of `Model::processNode` visits the mesh references in
depth-first pre-order. -/
theorem processNode_eq_preorder [Field R] (W : Files R) (scene : AiScene R) :
    ∀ (node : AiNode) (s : List (Mesh R) × Gfx R),
      Model.processNode W scene node s =
        forEachM (fun _ ref s => Model.processNode.meshStep W scene ref s)
          (Spec.preorderRefs node) s
  | AiNode.mk mMeshes mChildren, s => by
    rw [Model.processNode, Spec.preorderRefs]
    unfold forEachM
    rw [forEachFromM_append]
    congr 1
    funext s1
    exact processChildren_eq_preorder W scene mChildren s1
/-- The child loop of `Model::processNode` visits the subtrees one after the other. -/
theorem processChildren_eq_preorder [Field R] (W : Files R) (scene : AiScene R) :
    ∀ (children : List AiNode) (s : List (Mesh R) × Gfx R),
      Model.processNode.children W scene children s =
        forEachFromM (fun _ ref s => Model.processNode.meshStep W scene ref s) 0
          (Spec.preorderRefsOfList children) s
  | [], s => by
    rw [Model.processNode.children, Spec.preorderRefsOfList]
    rfl
  | child :: rest, s => by
    rw [Model.processNode.children, Spec.preorderRefsOfList, forEachFromM_append,
      processNode_eq_preorder W scene child s]
    unfold forEachM
    congr 1
    funext s1
    exact processChildren_eq_preorder W scene rest s1
end

mutual
/-- The pre-order list has one entry per mesh reference of the tree. -/
theorem length_preorderRefs :
    ∀ node : AiNode, (Spec.preorderRefs node).length = Spec.countRefs node
  | AiNode.mk mMeshes mChildren => by
    rw [Spec.preorderRefs, Spec.countRefs, List.length_append,
      length_preorderRefsOfList mChildren]
/-- The pre-order list of a sequence of trees has one entry per mesh reference. -/
theorem length_preorderRefsOfList :
    ∀ nodes : List AiNode, (Spec.preorderRefsOfList nodes).length = Spec.countRefsOfList nodes
  | [] => by rw [Spec.preorderRefsOfList, Spec.countRefsOfList]; rfl
  | child :: rest => by
    rw [Spec.preorderRefsOfList, Spec.countRefsOfList, List.length_append,
      length_preorderRefs child, length_preorderRefsOfList rest]
end

/-- What one step of the mesh loop returns, when it returns. -/
theorem meshStep_spec [Field R] (W : Files R) (scene : AiScene R) (ref : Nat)
    (s s' : List (Mesh R) × Gfx R) (h : Model.processNode.meshStep W scene ref s = some s') :
    ∃ src m, scene.mMeshes[ref]? = some src ∧
      Model.processMesh W src scene s.2 = some (m, s'.2) ∧ s'.1 = s.1 ++ [m] := by
  unfold Model.processNode.meshStep at h
  cases hsrc : scene.mMeshes[ref]? with
  | none => simp [hsrc] at h
  | some src =>
    cases hm : Model.processMesh W src scene s.2 with
    | none => simp [hsrc, hm] at h
    | some r =>
      simp only [hsrc, hm, bind, pure, Option.bind, Option.some.injEq] at h
      subst h
      exact ⟨src, r.1, rfl, hm, rfl⟩

/-- One step of the mesh loop returns when the reference is in bounds. -/
theorem meshStep_some [Field R] (W : Files R) (scene : AiScene R) (ref : Nat)
    (s : List (Mesh R) × Gfx R)
    (h : ∃ mesh, scene.mMeshes[ref]? = some mesh ∧ mesh.InBounds scene) :
    ∃ s', Model.processNode.meshStep W scene ref s = some s' := by
  obtain ⟨mesh, hmesh, hb⟩ := h
  obtain ⟨m, g', hm⟩ := processMesh_some W mesh scene hb s.2
  unfold Model.processNode.meshStep
  simp only [hmesh, hm, bind, pure, Option.bind]
  exact ⟨_, rfl⟩

/-- What the conversion of a list of references returns, when it returns: one
mesh per reference is appended, each the `processMesh` of the referenced mesh. -/
theorem convertRefs_spec [Field R] (W : Files R) (scene : AiScene R) (refs : List Nat) (i : Nat)
    (s s' : List (Mesh R) × Gfx R)
    (h : forEachFromM (fun _ ref s => Model.processNode.meshStep W scene ref s) i refs s =
      some s') :
    ∃ new, s'.1 = s.1 ++ new ∧ new.length = refs.length ∧
      ∀ (k : Nat) (ref : Nat), refs[k]? = some ref →
        ∃ (src : AiMesh R) (m : Mesh R) (gk gk' : Gfx R), scene.mMeshes[ref]? = some src ∧
          new[k]? = some m ∧ Model.processMesh W src scene gk = some (m, gk') := by
  induction refs generalizing i s with
  | nil =>
    simp only [forEachFromM, Option.some.injEq] at h
    subst h
    exact ⟨[], by simp, rfl, by simp⟩
  | cons ref refs ih =>
    simp only [forEachFromM] at h
    cases hstep : Model.processNode.meshStep W scene ref s with
    | none => simp [hstep] at h
    | some s1 =>
      simp only [hstep, Option.some_bind] at h
      obtain ⟨src, m, hsrc, hm, hs1⟩ := meshStep_spec W scene ref s s1 hstep
      obtain ⟨new, hnew, hlen, hget⟩ := ih (i + 1) s1 h
      refine ⟨m :: new, by simp [hnew, hs1], by simp [hlen], ?_⟩
      intro k r hk
      cases k with
      | zero =>
        simp only [List.getElem?_cons_zero, Option.some.injEq] at hk
        subst hk
        exact ⟨src, m, s.2, s1.2, hsrc, by simp, hm⟩
      | succ k =>
        simp only [List.getElem?_cons_succ] at hk
        obtain ⟨src', m', gk, gk', h1, h2, h3⟩ := hget k r hk
        exact ⟨src', m', gk, gk', h1, by simpa using h2, h3⟩

/-- The conversion of a list of references returns when all are in bounds. -/
theorem convertRefs_some [Field R] (W : Files R) (scene : AiScene R) (refs : List Nat) (i : Nat)
    (s : List (Mesh R) × Gfx R)
    (h : ∀ ref ∈ refs, ∃ mesh, scene.mMeshes[ref]? = some mesh ∧ mesh.InBounds scene) :
    ∃ s', forEachFromM (fun _ ref s => Model.processNode.meshStep W scene ref s) i refs s =
      some s' := by
  induction refs generalizing i s with
  | nil => exact ⟨s, rfl⟩
  | cons ref refs ih =>
    obtain ⟨s1, hs1⟩ := meshStep_some W scene ref s (h ref (List.mem_cons_self _ _))
    simp only [forEachFromM, hs1, Option.some_bind]
    exact ih (i + 1) s1 fun r hr => h r (List.mem_cons_of_mem _ hr)

end TraversalLemmas

/-! ## Textures, the commands of `Mesh::draw`, and the material presets -/

section TextureLemmas

variable {R : Type}

/-- The handle returned, the name counter and the commands of `loadTexture`. -/
theorem loadTexture_effect (W : Files R) (path : String) (g : Gfx R) :
    (loadTexture W path g).1 = g.textureNames + 1 ∧
    (loadTexture W path g).2.textureNames = g.textureNames + 1 ∧
    (loadTexture W path g).2.calls =
      g.calls ++ GLCall.genTextures (g.textureNames + 1) ::
        (match W.stbi_load path with
         | some image =>
           [GLCall.bindTexture (g.textureNames + 1),
            GLCall.texImage2D (loadTexture.format image.numChannels) image
              (loadTexture.format image.numChannels),
            GLCall.generateMipmap,
            GLCall.texParameteri TexParam.GL_TEXTURE_WRAP_S TexValue.GL_REPEAT,
            GLCall.texParameteri TexParam.GL_TEXTURE_WRAP_T TexValue.GL_REPEAT,
            GLCall.texParameteri TexParam.GL_TEXTURE_MIN_FILTER TexValue.GL_LINEAR,
            GLCall.texParameteri TexParam.GL_TEXTURE_MAG_FILTER TexValue.GL_LINEAR]
         | none => []) := by
  cases h : W.stbi_load path <;>
    simp [loadTexture, glGenTextures, glBindTexture, Gfx.submit, h]

/-- The loop of `Model::loadMaterialTextures`: one texture per path, with the
next unused names in order. -/
theorem loadMaterialTextures_loop (W : Files R) (paths : List String) (i : Nat)
    (acc : List Texture) (g : Gfx R) :
    (forEachFrom
        (fun _ str (s : List Texture × Gfx R) =>
          let (id, g) := loadTexture W str s.2
          let texture : Texture := { id := id, path := str }
          (s.1 ++ [texture], g))
        i paths (acc, g)).1.map Texture.id =
      acc.map Texture.id ++ List.range' (g.textureNames + 1) paths.length ∧
    (forEachFrom
        (fun _ str (s : List Texture × Gfx R) =>
          let (id, g) := loadTexture W str s.2
          let texture : Texture := { id := id, path := str }
          (s.1 ++ [texture], g))
        i paths (acc, g)).1.map Texture.path = acc.map Texture.path ++ paths := by
  induction paths generalizing i acc g with
  | nil => simp [forEachFrom]
  | cons p ps ih =>
    obtain ⟨h1, h2, _⟩ := loadTexture_effect W p g
    obtain ⟨ih1, ih2⟩ := ih (i + 1) (acc ++ [⟨(loadTexture W p g).1, p⟩]) (loadTexture W p g).2
    simp only [forEachFrom]
    refine ⟨?_, ?_⟩
    · rw [ih1, h2, h1]
      simp [List.range'_succ]
    · rw [ih2]
      simp

end TextureLemmas

section DrawLogLemmas

variable {R : Type}

/-- The commands of the texture loop and the bindings it leaves: the textures
are bound to consecutive units from `i` on, and lower units are not touched. -/
theorem bindTextures_log (ts : List Texture) (i : Nat) (g : Gfx R) :
    (forEachFrom Mesh.bindTextureStep i ts g).calls = g.calls ++ Spec.bindCalls i ts ∧
    (∀ (k : Nat) (t : Texture), ts[k]? = some t →
      (forEachFrom Mesh.bindTextureStep i ts g).textureBinding (i + k) = t.id) ∧
    ∀ u : Nat, u < i →
      (forEachFrom Mesh.bindTextureStep i ts g).textureBinding u = g.textureBinding u := by
  induction ts generalizing i g with
  | nil => simp [forEachFrom, Spec.bindCalls]
  | cons t ts ih =>
    obtain ⟨hcalls, hbound, hlow⟩ := ih (i + 1) (Mesh.bindTextureStep i t g)
    have hstepCalls : (Mesh.bindTextureStep i t g).calls =
        g.calls ++ [GLCall.activeTexture i,
          GLCall.setInt ("textureDiffuse" ++ toString i) (Int.ofNat i),
          GLCall.bindTexture t.id] := by
      simp [Mesh.bindTextureStep, glActiveTexture, Shader.setInt, glBindTexture, Gfx.submit]
    have hstepBinding : (Mesh.bindTextureStep i t g).textureBinding =
        Function.update g.textureBinding i t.id := by
      simp [Mesh.bindTextureStep, glActiveTexture, Shader.setInt, glBindTexture, Gfx.submit]
    refine ⟨?_, ?_, ?_⟩
    · simp only [forEachFrom, hcalls, hstepCalls, Spec.bindCalls]
      simp
    · intro k u hk
      cases k with
      | zero =>
        simp only [List.getElem?_cons_zero, Option.some.injEq] at hk
        subst hk
        simp only [forEachFrom, Nat.add_zero]
        rw [hlow i (Nat.lt_succ_self i), hstepBinding, Function.update_same]
      | succ k =>
        simp only [List.getElem?_cons_succ] at hk
        have h := hbound k u hk
        simp only [forEachFrom]
        rw [show i + (k + 1) = i + 1 + k by omega]
        exact h
    · intro u hu
      simp only [forEachFrom]
      rw [hlow u (by omega), hstepBinding, Function.update_noteq (by omega)]

/-- The expected commands of the texture loop, entry by entry: three per
texture, for texture `k` those of unit `i + k`. -/
theorem bindCalls_entries (ts : List Texture) (i : Nat) :
    (Spec.bindCalls i ts : List (GLCall R)).length = 3 * ts.length ∧
    ∀ (k : Nat) (t : Texture), ts[k]? = some t →
      (Spec.bindCalls i ts : List (GLCall R))[3 * k]? = some (GLCall.activeTexture (i + k)) ∧
      (Spec.bindCalls i ts : List (GLCall R))[3 * k + 1]? =
        some (GLCall.setInt ("textureDiffuse" ++ toString (i + k)) (Int.ofNat (i + k))) ∧
      (Spec.bindCalls i ts : List (GLCall R))[3 * k + 2]? = some (GLCall.bindTexture t.id) := by
  induction ts generalizing i with
  | nil => simp [Spec.bindCalls]
  | cons t ts ih =>
    obtain ⟨hlen, hget⟩ := ih (i + 1)
    refine ⟨?_, ?_⟩
    · simp only [Spec.bindCalls, List.length_cons, hlen]
      omega
    · intro k u hk
      cases k with
      | zero =>
        simp only [List.getElem?_cons_zero, Option.some.injEq] at hk
        subst hk
        simp [Spec.bindCalls]
      | succ k =>
        simp only [List.getElem?_cons_succ] at hk
        obtain ⟨h0, h1, h2⟩ := hget k u hk
        rw [show i + 1 + k = i + (k + 1) by omega] at h0 h1
        simp only [Spec.bindCalls]
        refine ⟨?_, ?_, ?_⟩
        · rw [show 3 * (k + 1) = 3 * k + 1 + 1 + 1 by omega]
          simpa using h0
        · rw [show 3 * (k + 1) + 1 = 3 * k + 1 + 1 + 1 + 1 by omega]
          simpa using h1
        · rw [show 3 * (k + 1) + 2 = 3 * k + 2 + 1 + 1 + 1 by omega]
          simpa using h2

end DrawLogLemmas

section PresetLemmas

variable {R : Type} [Field R]

/-- Translating by the zero vector changes nothing. -/
theorem translate_zero (m : Mat4 R) : glm.translate m ⟨0, 0, 0⟩ = m := by
  obtain ⟨a, b, c, ⟨d0, d1, d2, d3⟩⟩ := m
  simp [glm.translate, Vec4.add, Vec4.scale]

/-- In presets mode the window applies the material of the selection, then the
dispersion of the selection. -/
theorem drawIMGUIWindow_presets_eq (ui : ImGui R) (s : Globals R)
    (hpresets : ui.Checkbox "Presets" s.imguiPresets = true) :
    drawIMGUIWindow ui s =
      updateDispersionStrength (ui.Combo "Dispersion Strength" s.selectedDispersion)
        { updateMaterialProperties (ui.Combo "Material" s.selectedMaterial)
            { s with
              imguiPresets := true
              selectedMaterial := ui.Combo "Material" s.selectedMaterial } with
          selectedDispersion := ui.Combo "Dispersion Strength" s.selectedDispersion } := by
  have hsel : ∀ (m : Int) (t : Globals R),
      (updateMaterialProperties m t).selectedDispersion = t.selectedDispersion := by
    intro m t
    unfold updateMaterialProperties
    split_ifs <;> rfl
  simp only [drawIMGUIWindow, hpresets, Bool.not_true, Bool.false_eq_true, if_false, hsel]

/-- The dispersion amount `updateDispersionStrength` leaves, and what it keeps. -/
theorem updateDispersionStrength_effect (d : Int) (s : Globals R) :
    (updateDispersionStrength d s).dispersionAmount = Spec.amount d ∧
    (updateDispersionStrength d s).etaR = s.etaR ∧
    (updateDispersionStrength d s).etaG = s.etaG ∧
    (updateDispersionStrength d s).etaB = s.etaB ∧
    (updateDispersionStrength d s).F0 = s.F0 ∧
    (updateDispersionStrength d s).imguiPresets = s.imguiPresets ∧
    (updateDispersionStrength d s).selectedMaterial = s.selectedMaterial ∧
    (updateDispersionStrength d s).selectedDispersion = s.selectedDispersion := by
  unfold updateDispersionStrength Spec.amount
  split_ifs <;> norm_num

/-- The values `updateMaterialProperties` leaves for a material other than Metal. -/
theorem updateMaterialProperties_nonmetal (m : Int) (s : Globals R) (hm : m ≠ Metal) :
    (updateMaterialProperties m s).etaR = Spec.base m - s.dispersionAmount ∧
    (updateMaterialProperties m s).etaG = Spec.base m ∧
    (updateMaterialProperties m s).etaB = Spec.base m + s.dispersionAmount := by
  unfold updateMaterialProperties Spec.base
  split_ifs <;> simp_all

/-- The values `updateMaterialProperties` leaves for Metal. -/
theorem updateMaterialProperties_metal (s : Globals R) :
    (updateMaterialProperties Metal s).etaR = 0 ∧
    (updateMaterialProperties Metal s).etaG = 0 ∧
    (updateMaterialProperties Metal s).etaB = 0 ∧
    (updateMaterialProperties Metal s).F0 = 1 := by
  norm_num [updateMaterialProperties, Metal, Water, Air]

/-- What `updateMaterialProperties` keeps. -/
theorem updateMaterialProperties_frame (m : Int) (s : Globals R) :
    (updateMaterialProperties m s).dispersionAmount = s.dispersionAmount ∧
    (updateMaterialProperties m s).imguiPresets = s.imguiPresets ∧
    (updateMaterialProperties m s).selectedMaterial = s.selectedMaterial ∧
    (updateMaterialProperties m s).selectedDispersion = s.selectedDispersion := by
  unfold updateMaterialProperties
  split_ifs <;> simp

end PresetLemmas

/-! ## Degrees and radians -/

section DegreeLemmas

/-- The conversion `glm::radians` over the reals: degrees times the library's
decimal constant. -/
theorem radians_eq (degrees : ℝ) :
    glm.radians degrees = degrees * 0.01745329251994329576923690768489 := by
  unfold glm.radians
  norm_num

/-- The library's constant is pi / 180 to 22 decimal places, so the angle it
gives is the angle of that many degrees up to that relative error. -/
theorem radians_near_degrees (degrees : ℝ) :
    |degrees * 0.01745329251994329576923690768489 - degrees * (Real.pi / 180)| ≤
      |degrees| / 10 ^ 22 := by
  have hlo := Real.pi_gt_d20
  have hhi := Real.pi_lt_d20
  have hk : |(0.01745329251994329576923690768489 : ℝ) - Real.pi / 180| ≤ 1 / 10 ^ 22 := by
    rw [abs_le]
    constructor
    · norm_num at hlo hhi ⊢
      linarith
    · norm_num at hlo hhi ⊢
      linarith
  have hfactor : degrees * 0.01745329251994329576923690768489 - degrees * (Real.pi / 180) =
      degrees * (0.01745329251994329576923690768489 - Real.pi / 180) := by ring
  rw [hfactor, abs_mul]
  calc |degrees| * |(0.01745329251994329576923690768489 : ℝ) - Real.pi / 180|
      ≤ |degrees| * (1 / 10 ^ 22) := mul_le_mul_of_nonneg_left hk (abs_nonneg degrees)
    _ = |degrees| / 10 ^ 22 := by ring

/-- The sine moves by no more than the angle. -/
theorem abs_sin_sub_sin_le (a b : ℝ) : |Real.sin a - Real.sin b| ≤ |a - b| := by
  rw [Real.sin_sub_sin, abs_mul, abs_mul]
  have h1 : |Real.sin ((a - b) / 2)| ≤ |a - b| / 2 := by
    have h := Real.abs_sin_le_abs (x := (a - b) / 2)
    rwa [abs_div, abs_two] at h
  have h2 : |Real.cos ((a + b) / 2)| ≤ 1 := Real.abs_cos_le_one _
  have h0 : 0 ≤ |Real.sin ((a - b) / 2)| := abs_nonneg _
  have h3 : 0 ≤ |Real.cos ((a + b) / 2)| := abs_nonneg _
  rw [abs_two]
  nlinarith

/-- The cosine moves by no more than the angle. -/
theorem abs_cos_sub_cos_le (a b : ℝ) : |Real.cos a - Real.cos b| ≤ |a - b| := by
  rw [Real.cos_sub_cos, abs_mul, abs_mul]
  have h1 : |Real.sin ((a - b) / 2)| ≤ |a - b| / 2 := by
    have h := Real.abs_sin_le_abs (x := (a - b) / 2)
    rwa [abs_div, abs_two] at h
  have h2 : |Real.sin ((a + b) / 2)| ≤ 1 := Real.abs_sin_le_one _
  have h0 : 0 ≤ |Real.sin ((a - b) / 2)| := abs_nonneg _
  have h3 : 0 ≤ |Real.sin ((a + b) / 2)| := abs_nonneg _
  rw [abs_neg, abs_two]
  nlinarith

/-- No entry of the rotation about Z moves by more than the angle. -/
theorem Rz_entries_close (a b : ℝ) (i j : Fin 4) :
    |Spec.Rz ⟨Real.cos, Real.sin, Real.sqrt⟩ a i j -
        Spec.Rz ⟨Real.cos, Real.sin, Real.sqrt⟩ b i j| ≤ |a - b| := by
  have hs := abs_sin_sub_sin_le a b
  have hc := abs_cos_sub_cos_le a b
  have h0 : (0 : ℝ) ≤ |a - b| := abs_nonneg _
  have hn : |-Real.sin a + Real.sin b| ≤ |a - b| := by
    rw [show -Real.sin a + Real.sin b = -(Real.sin a - Real.sin b) by ring, abs_neg]
    exact hs
  simp only [Spec.Rz]
  fin_cases i <;> fin_cases j <;> simp <;> assumption

end DegreeLemmas

/-! ## The claims -/

/-- C2: for every pose vector and every previous value of the mesh matrix, after
`Mesh::updateModelMatrix` the mesh matrix is, over the real numbers, the product
`I * T (tX, tY, tZ) * Rx (rX) * Ry (rY) * Rz (rZ)` with the angles in radians,
each factor multiplied on the right of the matrix built so far. -/
theorem updateModelMatrix_eq_product (mesh : Mesh ℝ) :
    (Mesh.updateModelMatrix ⟨Real.cos, Real.sin, Real.sqrt⟩ mesh).meshMatrix.toMatrix =
      1 * Spec.T (mesh.mesh6DoF tX) (mesh.mesh6DoF tY) (mesh.mesh6DoF tZ) *
        Spec.Rx ⟨Real.cos, Real.sin, Real.sqrt⟩ (mesh.mesh6DoF rX) *
          Spec.Ry ⟨Real.cos, Real.sin, Real.sqrt⟩ (mesh.mesh6DoF rY) *
            Spec.Rz ⟨Real.cos, Real.sin, Real.sqrt⟩ (mesh.mesh6DoF rZ) :=
  updateModelMatrix_toMatrix ⟨Real.cos, Real.sin, Real.sqrt⟩ Real.sqrt_one mesh

/-- C3: for every pose vector with `rX = 0` and `rZ = 0`,
`Mesh::updateModelMatrix` produces the same matrix as identity, then
`translate (tX, tY, tZ)`, then a rotation of `rY` radians about the Y axis: the
two zero-angle rotations contribute nothing. -/
theorem updateModelMatrix_zero_rX_rZ (mesh : Mesh ℝ) (hX : mesh.mesh6DoF rX = 0)
    (hZ : mesh.mesh6DoF rZ = 0) :
    (Mesh.updateModelMatrix ⟨Real.cos, Real.sin, Real.sqrt⟩ mesh).meshMatrix =
      glm.rotate ⟨Real.cos, Real.sin, Real.sqrt⟩
        (glm.translate glm.mat4_1 ⟨mesh.mesh6DoF tX, mesh.mesh6DoF tY, mesh.mesh6DoF tZ⟩)
        (mesh.mesh6DoF rY) ⟨0, 1, 0⟩ := by
  simp only [Mesh.updateModelMatrix, hX, hZ]
  rw [rotate_zero _ Real.cos_zero Real.sin_zero, rotate_zero _ Real.cos_zero Real.sin_zero]

/-- C3 at the pose `(1, 2, 3, 0, pi / 2, 0)`: the hypotheses hold there, the
matrix is the one of translate-then-rotate-about-Y, and its columns are
`(0, 0, -1, 0)`, `(0, 1, 0, 0)`, `(1, 0, 0, 0)`, `(1, 2, 3, 1)`. -/
theorem updateModelMatrix_zero_rX_rZ_witness :
    (![1, 2, 3, 0, Real.pi / 2, 0] : Fin 6 → ℝ) rX = 0 ∧
    (![1, 2, 3, 0, Real.pi / 2, 0] : Fin 6 → ℝ) rZ = 0 ∧
    (Mesh.updateModelMatrix ⟨Real.cos, Real.sin, Real.sqrt⟩
        (⟨[], [], [], glm.mat4_1, "", ![1, 2, 3, 0, Real.pi / 2, 0], 0, 0, 0, 0, 0⟩ :
          Mesh ℝ)).meshMatrix =
      glm.rotate ⟨Real.cos, Real.sin, Real.sqrt⟩
        (glm.translate glm.mat4_1 ⟨1, 2, 3⟩) (Real.pi / 2) ⟨0, 1, 0⟩ ∧
    glm.rotate ⟨Real.cos, Real.sin, Real.sqrt⟩
        (glm.translate (glm.mat4_1 : Mat4 ℝ) ⟨1, 2, 3⟩) (Real.pi / 2) ⟨0, 1, 0⟩ =
      ⟨⟨0, 0, -1, 0⟩, ⟨0, 1, 0, 0⟩, ⟨1, 0, 0, 0⟩, ⟨1, 2, 3, 1⟩⟩ :=
  ⟨rfl, rfl,
    updateModelMatrix_zero_rX_rZ
      ⟨[], [], [], glm.mat4_1, "", ![1, 2, 3, 0, Real.pi / 2, 0], 0, 0, 0, 0, 0⟩ rfl rfl,
    by simp [glm.rotate, glm.translate, glm.mat4_1, glm.normalize, glm.inversesqrt, glm.dot,
      Vec3.scale, Vec3.smul, Vec4.add, Vec4.scale]⟩

/-- C5: for every mesh, parent transform `P`, rotation `rotZ` and prior state,
`Mesh::drawHierarchy` issues one draw call, of the mesh's vertex array, while the
shader's "model" uniform is `P` rotated by `rotZ` degrees about Z: the uniform is
`glm::rotate (P, glm::radians (rotZ), (0, 0, 1))`, which is `P * Rz (a)` for the
angle `a = rotZ * 0.01745329251994329576923690768489`; the factor is the
library's constant for pi / 180, so `a` is within `|rotZ| / 10 ^ 22` of the angle
of `rotZ` degrees, `rotZ * (pi / 180)` radians, and so is every entry of `Rz (a)`
of the rotation by `rotZ` degrees.  When it returns the "model" uniform is `P`,
and the caller's `P` and `rotZ` are as they were. -/
theorem drawHierarchy_model_uniform (mesh : Mesh ℝ) (g : Gfx ℝ) (P : Mat4 ℝ) (rotZ : ℝ) :
    ∃ d M,
      drawCalls (Mesh.drawHierarchy ⟨Real.cos, Real.sin, Real.sqrt⟩ mesh g P rotZ).1.calls =
        drawCalls g.calls ++ [d] ∧
      d.vertexArray = mesh.VAO ∧
      d.uniforms.mat4s "model" = some M ∧
      M = glm.rotate ⟨Real.cos, Real.sin, Real.sqrt⟩ P (glm.radians rotZ) ⟨0, 0, 1⟩ ∧
      M.toMatrix =
        P.toMatrix *
          Spec.Rz ⟨Real.cos, Real.sin, Real.sqrt⟩
            (rotZ * 0.01745329251994329576923690768489) ∧
      |rotZ * 0.01745329251994329576923690768489 - rotZ * (Real.pi / 180)| ≤
        |rotZ| / 10 ^ 22 ∧
      (∀ i j : Fin 4,
        |Spec.Rz ⟨Real.cos, Real.sin, Real.sqrt⟩
              (rotZ * 0.01745329251994329576923690768489) i j -
            Spec.Rz ⟨Real.cos, Real.sin, Real.sqrt⟩ (rotZ * (Real.pi / 180)) i j| ≤
          |rotZ| / 10 ^ 22) ∧
      (Mesh.drawHierarchy ⟨Real.cos, Real.sin, Real.sqrt⟩ mesh g P rotZ).1.shader.mat4s "model" =
        some P ∧
      (Mesh.drawHierarchy ⟨Real.cos, Real.sin, Real.sqrt⟩ mesh g P rotZ).2 = (P, rotZ) := by
  obtain ⟨hu, h2, d, hd, hv, _, hm⟩ :=
    Mesh.drawHierarchy_effect ⟨Real.cos, Real.sin, Real.sqrt⟩ mesh g P rotZ
  refine ⟨d, _, hd, hv, hm, rfl, ?_, radians_near_degrees rotZ, ?_, hu, h2⟩
  · rw [← radians_eq]
    exact toMatrix_rotate_z _ Real.sqrt_one P _
  · intro i j
    exact (Rz_entries_close _ _ i j).trans (radians_near_degrees rotZ)

/-- C6, as stated, fails: a model of the single untagged mesh "Body", drawn with
parent transform the identity from a state whose "model" uniform holds a
translation by `(1, 0, 0)`, issues its draw call under that translation, which
is not the parent transform. -/
theorem drawHierarchy_untagged_keeps_prior_uniform :
    (drawCalls
        (Model.drawHierarchy ⟨Real.cos, Real.sin, Real.sqrt⟩ ⟨[Example.triangle "Body" 1]⟩
          (Shader.setMat4 "model" (glm.translate glm.mat4_1 ⟨1, 0, 0⟩) Gfx.initial)
          (glm.mat4_1 : Mat4 ℝ) 0).1.calls).map DrawCall.info =
      [(1, 3, some (glm.translate glm.mat4_1 ⟨1, 0, 0⟩))] ∧
    (Example.triangle "Body" 1 : Mesh ℝ).meshName ≠ "Prop" ∧
    glm.translate (glm.mat4_1 : Mat4 ℝ) ⟨1, 0, 0⟩ ≠ glm.mat4_1 := by
  refine ⟨?_, by decide, ?_⟩
  · simp [Model.drawHierarchy, forEach, forEachFrom, Model.drawHierarchy.step, Example.triangle,
      Mesh.draw, glBindVertexArray, glDrawElements, glActiveTexture, Shader.setMat4, Gfx.submit,
      Gfx.initial, drawCalls, DrawCall.info]
  · intro h
    have hx := congrArg (fun m => m.c3.x) h
    simp [glm.translate, glm.mat4_1, Vec4.add, Vec4.scale] at hx

/-- C6, amended: in `Model::drawHierarchy` every owned mesh whose name is not
"Prop" has its draw call issued while the shader's "model" uniform equals the
parent transform `P`, provided the uniform equals `P` when the method is called
or a mesh named "Prop" precedes it in the mesh list. -/
theorem drawHierarchy_untagged_parent (model : Model ℝ) (g : Gfx ℝ) (P : Mat4 ℝ) (rotZ : ℝ)
    (k : Nat) (mesh : Mesh ℝ) (hk : model.meshes[k]? = some mesh)
    (hname : mesh.meshName ≠ "Prop")
    (hentry : g.shader.mat4s "model" = some P ∨
      ∃ j tagged, j < k ∧ model.meshes[j]? = some tagged ∧ tagged.meshName = "Prop") :
    ∃ ds d,
      drawCalls (Model.drawHierarchy ⟨Real.cos, Real.sin, Real.sqrt⟩ model g P rotZ).1.calls =
        drawCalls g.calls ++ ds ∧
      ds.length = model.meshes.length ∧
      ds[k]? = some d ∧
      d.vertexArray = mesh.VAO ∧
      d.uniforms.mat4s "model" = some P := by
  obtain ⟨_, ds, hds, hinfo⟩ :=
    hierarchyLoop_effect ⟨Real.cos, Real.sin, Real.sqrt⟩ P rotZ model.meshes 0 g
  have hentry := hierarchyDraws_untagged
    (glm.rotate ⟨Real.cos, Real.sin, Real.sqrt⟩ P (glm.radians rotZ) ⟨0, 0, 1⟩) P model.meshes k
    mesh (g.shader.mat4s "model") hk hname hentry
  have hlen : ds.length = model.meshes.length := by
    have h1 := congrArg List.length hinfo
    have h2 := congrArg List.length
      (hierarchyDraws_handles
        (glm.rotate ⟨Real.cos, Real.sin, Real.sqrt⟩ P (glm.radians rotZ) ⟨0, 0, 1⟩) P
        model.meshes (g.shader.mat4s "model"))
    simp only [List.length_map] at h1 h2
    omega
  rw [← hinfo, List.getElem?_map] at hentry
  cases hd : ds[k]? with
  | none => simp [hd] at hentry
  | some d =>
    simp only [hd, Option.map_some', Option.some.injEq, DrawCall.info, Prod.mk.injEq] at hentry
    exact ⟨ds, d, hds, hlen, hd, hentry.1, hentry.2.2⟩

/-- C6, amended, on the model `[Prop, Body]` drawn from the initial state, in
which no "model" uniform is set: "Body" follows the tagged mesh and is drawn
under the parent transform. -/
theorem drawHierarchy_untagged_parent_witness :
    (⟨[Example.triangle "Prop" 1, Example.triangle "Body" 2]⟩ : Model ℝ).meshes[1]? =
      some (Example.triangle "Body" 2) ∧
    (Example.triangle "Body" 2 : Mesh ℝ).meshName ≠ "Prop" ∧
    ∃ ds d,
      drawCalls
          (Model.drawHierarchy ⟨Real.cos, Real.sin, Real.sqrt⟩
            ⟨[Example.triangle "Prop" 1, Example.triangle "Body" 2]⟩ Gfx.initial
            glm.mat4_1 30).1.calls = drawCalls (Gfx.initial : Gfx ℝ).calls ++ ds ∧
      ds.length =
        (⟨[Example.triangle "Prop" 1, Example.triangle "Body" 2]⟩ : Model ℝ).meshes.length ∧
      ds[1]? = some d ∧
      d.vertexArray = (Example.triangle "Body" 2 : Mesh ℝ).VAO ∧
      d.uniforms.mat4s "model" = some glm.mat4_1 :=
  ⟨rfl, by decide,
    drawHierarchy_untagged_parent ⟨[Example.triangle "Prop" 1, Example.triangle "Body" 2]⟩
      Gfx.initial glm.mat4_1 30 1 (Example.triangle "Body" 2) rfl (by decide)
      (Or.inr ⟨0, Example.triangle "Prop" 1, by decide, rfl, rfl⟩)⟩

/-- C7: `Model::drawHierarchy` issues exactly one draw call per owned mesh, in
mesh-list order (each of the mesh's own vertex array and index count), and
handles each mesh with `Mesh::drawHierarchy`, on the given parent transform and
rotation, if its name equals "Prop" and with plain `Mesh::draw` otherwise; the
comparison is of the whole string and case-sensitive, so a mesh with the empty
name, or named "prop", "PROP" or "Propeller", is drawn by `Mesh::draw`. -/
theorem drawHierarchy_dispatch (model : Model ℝ) (g : Gfx ℝ) (P : Mat4 ℝ) (rotZ : ℝ) :
    (Model.drawHierarchy ⟨Real.cos, Real.sin, Real.sqrt⟩ model g P rotZ).1 =
      model.meshes.foldl
        (fun g mesh =>
          if mesh.meshName = "Prop" then
            (Mesh.drawHierarchy ⟨Real.cos, Real.sin, Real.sqrt⟩ mesh g P rotZ).1
          else Mesh.draw mesh g) g ∧
    (∃ ds,
      drawCalls (Model.drawHierarchy ⟨Real.cos, Real.sin, Real.sqrt⟩ model g P rotZ).1.calls =
        drawCalls g.calls ++ ds ∧
      ds.map (fun d => (d.vertexArray, d.count)) =
        model.meshes.map fun mesh => (mesh.VAO, mesh.indices.length)) ∧
    ∀ (mesh : Mesh ℝ) (s : Gfx ℝ × Mat4 ℝ × ℝ),
      mesh.meshName ∈ ["", "prop", "PROP", "Prop ", " Prop", "Propeller"] →
      Model.drawHierarchy.step ⟨Real.cos, Real.sin, Real.sqrt⟩ mesh s =
        (Mesh.draw mesh s.1, s.2.1, s.2.2) := by
  refine ⟨hierarchyLoop_eq_foldl _ P rotZ model.meshes 0 g, ?_, ?_⟩
  · obtain ⟨_, ds, hds, hinfo⟩ :=
      hierarchyLoop_effect ⟨Real.cos, Real.sin, Real.sqrt⟩ P rotZ model.meshes 0 g
    refine ⟨ds, hds, ?_⟩
    have h := congrArg (List.map fun e : Nat × Nat × Option (Mat4 ℝ) => (e.1, e.2.1)) hinfo
    rw [hierarchyDraws_handles] at h
    simpa [DrawCall.info, Function.comp_def] using h
  · intro mesh s hname
    have hne : mesh.meshName ≠ "Prop" := by
      intro h
      rw [h] at hname
      exact absurd hname (by decide)
    simp [Model.drawHierarchy.step, hne]

/-- C8: for every source mesh (whose reads are in bounds, so that `processMesh`
returns), the index sequence produced by `processMesh` is the concatenation, in
face order, of each face's index list in its stored order; when every face is a
triangle the sequence has length `3 * (number of faces)` and index `k` of face
`f` is at position `3 * f + k`. -/
theorem processMesh_indices {R : Type} [Field R] (W : Files R) (mesh : AiMesh R)
    (scene : AiScene R) (g : Gfx R) (hb : mesh.InBounds scene) :
    ∃ m g', Model.processMesh W mesh scene g = some (m, g') ∧
      m.indices = (mesh.mFaces.map AiFace.mIndices).flatten ∧
      ((∀ face ∈ mesh.mFaces, face.mIndices.length = 3) →
        m.indices.length = 3 * mesh.mFaces.length ∧
        ∀ f k face, mesh.mFaces[f]? = some face → k < 3 →
          m.indices[3 * f + k]? = face.mIndices[k]?) := by
  obtain ⟨m, g', h⟩ := processMesh_some W mesh scene hb g
  have hidx : m.indices = (mesh.mFaces.map AiFace.mIndices).flatten := by
    rw [(processMesh_spec W mesh scene g g' m h).2.1, faceLoop_eq_flatten]
  refine ⟨m, g', h, hidx, fun htri => ?_⟩
  rw [hidx]
  exact flatten_triangles mesh.mFaces htri

/-- C8 on the example quad (two triangles `0 1 2` and `2 3 0`): the hypothesis
holds and the index sequence is `0 1 2 2 3 0`. -/
theorem processMesh_indices_witness :
    (Example.quadMesh : AiMesh ℚ).InBounds Example.scene ∧
    (∃ m g', Model.processMesh Example.files Example.quadMesh Example.scene
        (Gfx.initial : Gfx ℚ) = some (m, g') ∧
      m.indices = ((Example.quadMesh : AiMesh ℚ).mFaces.map AiFace.mIndices).flatten ∧
      ((∀ face ∈ (Example.quadMesh : AiMesh ℚ).mFaces, face.mIndices.length = 3) →
        m.indices.length = 3 * (Example.quadMesh : AiMesh ℚ).mFaces.length ∧
        ∀ f k face, (Example.quadMesh : AiMesh ℚ).mFaces[f]? = some face → k < 3 →
          m.indices[3 * f + k]? = face.mIndices[k]?)) ∧
    ((Example.quadMesh : AiMesh ℚ).mFaces.map AiFace.mIndices).flatten = [0, 1, 2, 2, 3, 0] :=
  ⟨by simp [AiMesh.InBounds, Example.quadMesh, Example.scene],
    processMesh_indices Example.files Example.quadMesh Example.scene Gfx.initial
      (by simp [AiMesh.InBounds, Example.quadMesh, Example.scene]),
    by simp [Example.quadMesh]⟩

/-- C9: for every source mesh (whose reads are in bounds), `processMesh`
produces exactly one `Vertex` per source vertex, in source order; without
texture-coordinate channel 0 every `Vertex` has texture coordinate `(0, 0)`;
with channel 0 the texture coordinate of `Vertex` `i` is the `(x, y)` of entry
`i` of channel 0; and the other channels are not consulted: replacing them
changes nothing. -/
theorem processMesh_vertices {R : Type} [Field R] (W : Files R) (mesh : AiMesh R)
    (scene : AiScene R) (g : Gfx R) (hb : mesh.InBounds scene) :
    ∃ m g', Model.processMesh W mesh scene g = some (m, g') ∧
      m.vertices.length = mesh.mNumVertices ∧
      (∀ (i : Nat) (p : Vec3 R), mesh.mVertices[i]? = some p →
        ∃ v : Vertex R, m.vertices[i]? = some v ∧ v.Position = p ∧
          (mesh.mTextureCoords 0 = none → v.TexCoords = ⟨0, 0⟩) ∧
          ∀ channel : List (Vec3 R), mesh.mTextureCoords 0 = some channel →
            ∃ t : Vec3 R, channel[i]? = some t ∧ v.TexCoords = ⟨t.x, t.y⟩) ∧
      ∀ channels : Fin 8 → Option (List (Vec3 R)), channels 0 = mesh.mTextureCoords 0 →
        Model.processMesh W { mesh with mTextureCoords := channels } scene g = some (m, g') := by
  obtain ⟨m, g', h⟩ := processMesh_some W mesh scene hb g
  obtain ⟨new, hnew, hlen, hget⟩ :=
    pushLoopM_spec (Model.processMesh.vertex mesh) mesh.mVertices 0 [] m.vertices
      (processMesh_spec W mesh scene g g' m h).1
  simp only [List.nil_append] at hnew
  subst hnew
  refine ⟨m, g', h, hlen, ?_, ?_⟩
  · intro i p hi
    obtain ⟨v, hv, hbuilt⟩ := hget i p hi
    rw [Nat.zero_add] at hbuilt
    obtain ⟨hpos, _, _, htex0, htex⟩ := vertex_spec mesh i p v hbuilt
    exact ⟨v, hv, hpos, htex0, htex⟩
  · intro channels h0
    rw [← h]
    exact processMesh_congr W mesh { mesh with mTextureCoords := channels } scene g rfl rfl rfl rfl
      (vertex_channels mesh channels h0)

/-- C9 on the example "Prop" mesh, which has channels 0 and 1: the hypothesis
holds, and the texture coordinates produced are those of channel 0. -/
theorem processMesh_vertices_witness :
    (Example.propMesh : AiMesh ℚ).InBounds Example.scene ∧
    (∃ m g', Model.processMesh Example.files Example.propMesh Example.scene
        (Gfx.initial : Gfx ℚ) = some (m, g') ∧
      m.vertices.length = (Example.propMesh : AiMesh ℚ).mNumVertices ∧
      (∀ (i : Nat) (p : Vec3 ℚ), (Example.propMesh : AiMesh ℚ).mVertices[i]? = some p →
        ∃ v : Vertex ℚ, m.vertices[i]? = some v ∧ v.Position = p ∧
          ((Example.propMesh : AiMesh ℚ).mTextureCoords 0 = none → v.TexCoords = ⟨0, 0⟩) ∧
          ∀ channel : List (Vec3 ℚ), (Example.propMesh : AiMesh ℚ).mTextureCoords 0 = some channel →
            ∃ t : Vec3 ℚ, channel[i]? = some t ∧ v.TexCoords = ⟨t.x, t.y⟩) ∧
      ∀ channels : Fin 8 → Option (List (Vec3 ℚ)),
        channels 0 = (Example.propMesh : AiMesh ℚ).mTextureCoords 0 →
        Model.processMesh Example.files
          { (Example.propMesh : AiMesh ℚ) with mTextureCoords := channels } Example.scene
          Gfx.initial = some (m, g')) ∧
    (Model.processMesh Example.files Example.propMesh Example.scene (Gfx.initial : Gfx ℚ)).map
        (fun r => r.1.vertices.map fun v => v.TexCoords) =
      some [⟨0, 0⟩, ⟨1, 0⟩, ⟨0, 1⟩] :=
  ⟨by simp [AiMesh.InBounds, Example.propMesh, Example.scene, AiMesh.mNumVertices],
    processMesh_vertices Example.files Example.propMesh Example.scene Gfx.initial
      (by simp [AiMesh.InBounds, Example.propMesh, Example.scene, AiMesh.mNumVertices]),
    by rfl⟩

/-- C10: for a source mesh with declared normals (whose reads are in bounds),
the normal of `Vertex` `i` is source normal `i`, component for component and not
renormalized, and its position is source position `i`; for a source mesh
without declared normals no `Vertex` has its normal written, and the result
does not depend on the source normal array. -/
theorem processMesh_normals {R : Type} [Field R] (W : Files R) (mesh : AiMesh R)
    (scene : AiScene R) (g : Gfx R) (hb : mesh.InBounds scene) :
    ∃ m g', Model.processMesh W mesh scene g = some (m, g') ∧
      (mesh.HasNormals = true →
        ∃ normals : List (Vec3 R), mesh.mNormals = some normals ∧
          ∀ (i : Nat) (p : Vec3 R), mesh.mVertices[i]? = some p →
            ∃ (v : Vertex R) (n : Vec3 R), m.vertices[i]? = some v ∧ normals[i]? = some n ∧
              v.Normal = some n ∧ v.Position = p) ∧
      (mesh.HasNormals = false →
        (∀ v ∈ m.vertices, v.Normal = none) ∧
        ∀ normals : Option (List (Vec3 R)),
          AiMesh.HasNormals { mesh with mNormals := normals } = false →
          Model.processMesh W { mesh with mNormals := normals } scene g = some (m, g')) := by
  obtain ⟨m, g', h⟩ := processMesh_some W mesh scene hb g
  obtain ⟨new, hnew, hlen, hget⟩ :=
    pushLoopM_spec (Model.processMesh.vertex mesh) mesh.mVertices 0 [] m.vertices
      (processMesh_spec W mesh scene g g' m h).1
  simp only [List.nil_append] at hnew
  subst hnew
  refine ⟨m, g', h, ?_, ?_⟩
  · intro hn
    cases hnorm : mesh.mNormals with
    | none => simp [AiMesh.HasNormals, hnorm] at hn
    | some normals =>
      refine ⟨normals, rfl, ?_⟩
      intro i p hi
      obtain ⟨v, hv, hbuilt⟩ := hget i p hi
      rw [Nat.zero_add] at hbuilt
      obtain ⟨hpos, hwith, _, _, _⟩ := vertex_spec mesh i p v hbuilt
      obtain ⟨normals', n, hnormals', hni, hvn⟩ := hwith hn
      rw [hnorm, Option.some.injEq] at hnormals'
      subst hnormals'
      exact ⟨v, n, hv, hni, hvn, hpos⟩
  · intro hn
    refine ⟨?_, ?_⟩
    · intro v hv
      obtain ⟨k, hk⟩ := List.mem_iff_getElem?.mp hv
      have hklt : k < mesh.mVertices.length := by
        rcases Nat.lt_or_ge k m.vertices.length with hlt | hge
        · omega
        · rw [List.getElem?_eq_none hge] at hk
          exact absurd hk (by simp)
      obtain ⟨w, hw, hbuilt⟩ := hget k mesh.mVertices[k] (List.getElem?_eq_getElem hklt)
      rw [Nat.zero_add] at hbuilt
      rw [hk, Option.some.injEq] at hw
      subst hw
      exact (vertex_spec mesh k _ v hbuilt).2.2.1 hn
    · intro normals hother
      rw [← h]
      exact processMesh_congr W mesh { mesh with mNormals := normals } scene g rfl rfl rfl rfl
        (vertex_normals mesh normals hn hother)

/-- C10 on the examples: the "Prop" mesh is in bounds and its normals
`(0, 0, 1)`, `(0, 0, 2)`, `(0, 3, 4)`, two of them not of unit length, are
copied as they are; the quad declares no normals and none is written. -/
theorem processMesh_normals_witness :
    (Example.propMesh : AiMesh ℚ).InBounds Example.scene ∧
    (∃ m g', Model.processMesh Example.files Example.propMesh Example.scene
        (Gfx.initial : Gfx ℚ) = some (m, g') ∧
      ((Example.propMesh : AiMesh ℚ).HasNormals = true →
        ∃ normals : List (Vec3 ℚ), (Example.propMesh : AiMesh ℚ).mNormals = some normals ∧
          ∀ (i : Nat) (p : Vec3 ℚ), (Example.propMesh : AiMesh ℚ).mVertices[i]? = some p →
            ∃ (v : Vertex ℚ) (n : Vec3 ℚ), m.vertices[i]? = some v ∧ normals[i]? = some n ∧
              v.Normal = some n ∧ v.Position = p) ∧
      ((Example.propMesh : AiMesh ℚ).HasNormals = false →
        (∀ v ∈ m.vertices, v.Normal = none) ∧
        ∀ normals : Option (List (Vec3 ℚ)),
          AiMesh.HasNormals { (Example.propMesh : AiMesh ℚ) with mNormals := normals } = false →
          Model.processMesh Example.files
            { (Example.propMesh : AiMesh ℚ) with mNormals := normals } Example.scene
            Gfx.initial = some (m, g'))) ∧
    (Example.propMesh : AiMesh ℚ).HasNormals = true ∧
    (Model.processMesh Example.files Example.propMesh Example.scene (Gfx.initial : Gfx ℚ)).map
        (fun r => r.1.vertices.map fun v => v.Normal) =
      some [some ⟨0, 0, 1⟩, some ⟨0, 0, 2⟩, some ⟨0, 3, 4⟩] ∧
    (Example.quadMesh : AiMesh ℚ).HasNormals = false ∧
    (Model.processMesh Example.files Example.quadMesh Example.scene (Gfx.initial : Gfx ℚ)).map
        (fun r => r.1.vertices.map fun v => v.Normal) =
      some [none, none, none, none] :=
  ⟨by simp [AiMesh.InBounds, Example.propMesh, Example.scene, AiMesh.mNumVertices],
    processMesh_normals Example.files Example.propMesh Example.scene Gfx.initial
      (by simp [AiMesh.InBounds, Example.propMesh, Example.scene, AiMesh.mNumVertices]),
    by rfl, by rfl, by rfl, by rfl⟩

/-- C1: for every scene that passes the load checks (and whose reads are in
bounds), after `Model` construction the mesh list has exactly `N` entries, `N`
the total number of mesh references attached to the nodes of the tree, and
entry `k` is the `processMesh` conversion of mesh reference `k` in depth-first
pre-order; the conversions run one after the other in that order. -/
theorem model_meshes_preorder {R : Type} [Field R] (W : Files R) (path : String) (g : Gfx R)
    (scene : AiScene R) (root : AiNode) (hread : W.ReadFile path = some scene)
    (hflags : scene.mFlags &&& AI_SCENE_FLAGS_INCOMPLETE = 0)
    (hroot : scene.mRootNode = some root) (hb : scene.InBounds root) :
    ∃ model g', Model.new W path g = some (model, g') ∧
      model.meshes.length = Spec.countRefs root ∧
      (∀ (k : Nat) (ref : Nat), (Spec.preorderRefs root)[k]? = some ref →
        ∃ (src : AiMesh R) (m : Mesh R) (gk gk' : Gfx R), scene.mMeshes[ref]? = some src ∧
          model.meshes[k]? = some m ∧ Model.processMesh W src scene gk = some (m, gk')) ∧
      forEachM (fun _ ref s => Model.processNode.meshStep W scene ref s)
        (Spec.preorderRefs root) ([], g) = some (model.meshes, g') := by
  obtain ⟨s', hs'⟩ := convertRefs_some W scene (Spec.preorderRefs root) 0 ([], g) hb
  obtain ⟨new, hnew, hlen, hget⟩ :=
    convertRefs_spec W scene (Spec.preorderRefs root) 0 ([], g) s' hs'
  simp only [List.nil_append] at hnew
  have hload : Model.loadModel W path ([], g) = some s' := by
    unfold Model.loadModel
    simp only [hread, hflags, hroot, ne_eq, not_true_eq_false, if_false]
    rw [processNode_eq_preorder]
    exact hs'
  refine ⟨⟨s'.1⟩, s'.2, ?_, ?_, ?_, hs'⟩
  · simp [Model.new, hload]
  · rw [hnew, hlen, length_preorderRefs]
  · intro k ref hk
    obtain ⟨src, m, gk, gk', h1, h2, h3⟩ := hget k ref hk
    exact ⟨src, m, gk, gk', h1, by rw [hnew]; exact h2, h3⟩

/-- C1 on the example scene, whose pre-order references are `1, 0, 1`: the
hypotheses hold, and the model holds three meshes, the quad, the prop and the
quad again, with the vertex arrays 1, 2, 3 generated in that order. -/
theorem model_meshes_preorder_witness :
    (Example.files : Files ℚ).ReadFile "models/plane.obj" = some Example.scene ∧
    (∃ model g', Model.new Example.files "models/plane.obj" (Gfx.initial : Gfx ℚ) =
        some (model, g') ∧
      model.meshes.length =
        (Spec.countRefs (AiNode.mk [1] [AiNode.mk [0] [], AiNode.mk [] [AiNode.mk [1] []]])) ∧
      (∀ (k : Nat) (ref : Nat),
        (Spec.preorderRefs (AiNode.mk [1] [AiNode.mk [0] [], AiNode.mk [] [AiNode.mk [1] []]]))[k]? =
          some ref →
        ∃ (src : AiMesh ℚ) (m : Mesh ℚ) (gk gk' : Gfx ℚ),
          (Example.scene : AiScene ℚ).mMeshes[ref]? = some src ∧
          model.meshes[k]? = some m ∧
          Model.processMesh Example.files src Example.scene gk = some (m, gk')) ∧
      forEachM (fun _ ref s => Model.processNode.meshStep Example.files Example.scene ref s)
        (Spec.preorderRefs (AiNode.mk [1] [AiNode.mk [0] [], AiNode.mk [] [AiNode.mk [1] []]]))
        ([], Gfx.initial) = some (model.meshes, g')) ∧
    (Spec.preorderRefs (AiNode.mk [1] [AiNode.mk [0] [], AiNode.mk [] [AiNode.mk [1] []]])) =
      [1, 0, 1] ∧
    (Model.new Example.files "models/plane.obj" (Gfx.initial : Gfx ℚ)).map
        (fun r => r.1.meshes.map fun m => (m.meshName, m.VAO, m.indices)) =
      some [("", 1, [0, 1, 2, 2, 3, 0]), ("Prop", 2, [0, 1, 2]), ("", 3, [0, 1, 2, 2, 3, 0])] :=
  ⟨by rfl,
    model_meshes_preorder Example.files "models/plane.obj" Gfx.initial Example.scene
      (AiNode.mk [1] [AiNode.mk [0] [], AiNode.mk [] [AiNode.mk [1] []]]) (by rfl) (by rfl)
      (by rfl)
      (by
        intro ref href
        simp only [Spec.preorderRefs, Spec.preorderRefsOfList, List.append_nil,
          List.cons_append, List.nil_append, List.mem_cons, List.mem_singleton] at href
        have hprop : (Example.propMesh : AiMesh ℚ).InBounds Example.scene := by
          simp [AiMesh.InBounds, Example.propMesh, Example.scene, AiMesh.mNumVertices]
        have hquad : (Example.quadMesh : AiMesh ℚ).InBounds Example.scene := by
          simp [AiMesh.InBounds, Example.quadMesh, Example.scene]
        rcases href with h | h | h | h
        · subst h; exact ⟨Example.quadMesh, rfl, hquad⟩
        · subst h; exact ⟨Example.propMesh, rfl, hprop⟩
        · subst h; exact ⟨Example.quadMesh, rfl, hquad⟩
        · simp at h),
    by rfl,
    by simp [Model.new, Model.loadModel, Example.files, Example.scene, Model.processNode,
      Model.processNode.children, forEachM, forEachFromM, Model.processNode.meshStep,
      AI_SCENE_FLAGS_INCOMPLETE, Model.processMesh, Model.processMesh.vertexLoop,
      Model.processMesh.vertex, Model.processMesh.faceLoop, forEach, forEachFrom,
      Example.propMesh, Example.quadMesh, AiMesh.HasNormals, AiMesh.mNumVertices,
      Model.loadMaterialTextures, loadTexture, Mesh.new, Mesh.setupMesh, glGenTextures,
      glGenVertexArrays, glGenBuffers, glBindVertexArray, Gfx.submit, Gfx.initial]⟩

/-- C4: if the importer reports a missing scene, a scene with the incomplete
flag set, or a scene without a root node, `Model` construction returns
normally with zero meshes, and the state is the one before but for the line
written to `std::cout`: no mesh was converted (no command was submitted to the
graphics layer, no name generated). -/
theorem model_failed_import {R : Type} [Field R] (W : Files R) (path : String) (g : Gfx R)
    (h : W.ReadFile path = none ∨
      ∃ scene, W.ReadFile path = some scene ∧
        (scene.mFlags &&& AI_SCENE_FLAGS_INCOMPLETE ≠ 0 ∨ scene.mRootNode = none)) :
    Model.new W path g =
      some (⟨[]⟩, { g with cout := g.cout ++ ["ERROR::ASSIMP:: " ++ W.GetErrorString path] }) := by
  rcases h with h | ⟨scene, hread, hflag | hroot⟩
  · simp [Model.new, Model.loadModel, h]
  · simp [Model.new, Model.loadModel, hread, hflag]
  · by_cases hflag : scene.mFlags &&& AI_SCENE_FLAGS_INCOMPLETE = 0
    · simp [Model.new, Model.loadModel, hread, hflag, hroot]
    · simp [Model.new, Model.loadModel, hread, hflag]

/-- C4 on a path the example files do not hold: the importer returns no scene,
and the model built has no mesh. -/
theorem model_failed_import_witness :
    (Example.files : Files ℚ).ReadFile "models/missing.obj" = none ∧
    Model.new Example.files "models/missing.obj" (Gfx.initial : Gfx ℚ) =
      some (⟨[]⟩,
        { (Gfx.initial : Gfx ℚ) with
          cout := (Gfx.initial : Gfx ℚ).cout ++
            ["ERROR::ASSIMP:: " ++ (Example.files : Files ℚ).GetErrorString "models/missing.obj"] }) :=
  ⟨by rfl, model_failed_import Example.files "models/missing.obj" Gfx.initial (Or.inl (by rfl))⟩

/-- C11: every call of `loadTexture` allocates exactly one new texture name and
returns it, whether or not the image decodes, and looks nothing up: the handle
is the next unused name whatever the path and the files.  So a second call with
the same path, right after the first or from any later state, returns a handle
different from the first; and `Model::loadMaterialTextures` gives the textures
of a material the next unused names in slot order, all distinct, also when two
slots hold the same path. -/
theorem loadTexture_no_deduplication {R : Type} (W : Files R) (path : String) (g : Gfx R) :
    (loadTexture W path g).1 = g.textureNames + 1 ∧
    (loadTexture W path g).2.textureNames = g.textureNames + 1 ∧
    (∃ rest, (loadTexture W path g).2.calls =
        g.calls ++ GLCall.genTextures (loadTexture W path g).1 :: rest ∧
      ∀ name, GLCall.genTextures name ∉ rest) ∧
    (loadTexture W path (loadTexture W path g).2).1 ≠ (loadTexture W path g).1 ∧
    (∀ g2 : Gfx R, (loadTexture W path g).2.textureNames ≤ g2.textureNames →
      (loadTexture W path g2).1 ≠ (loadTexture W path g).1) ∧
    ∀ (mat : AiMaterial) (type : AiTextureType),
      (Model.loadMaterialTextures W mat type g).1.map Texture.id =
        List.range' (g.textureNames + 1) (mat.textures type).length ∧
      (Model.loadMaterialTextures W mat type g).1.map Texture.path = mat.textures type ∧
      ((Model.loadMaterialTextures W mat type g).1.map Texture.id).Nodup := by
  obtain ⟨h1, h2, h3⟩ := loadTexture_effect W path g
  refine ⟨h1, h2, ?_, ?_, ?_, ?_⟩
  · refine ⟨_, by rw [h1]; exact h3, ?_⟩
    intro name
    cases W.stbi_load path <;> simp
  · rw [(loadTexture_effect W path (loadTexture W path g).2).1, h1, h2]
    omega
  · intro g2 hle
    rw [(loadTexture_effect W path g2).1, h1]
    rw [h2] at hle
    omega
  · intro mat type
    obtain ⟨hid, hpath⟩ := loadMaterialTextures_loop W (mat.textures type) 0 [] g
    simp only [List.map_nil, List.nil_append] at hid hpath
    have hid2 : (Model.loadMaterialTextures W mat type g).1.map Texture.id =
        List.range' (g.textureNames + 1) (mat.textures type).length := hid
    exact ⟨hid2, hpath, by rw [hid2]; exact List.nodup_range' _ _⟩

/-- C12: for every successfully decoded image, `loadTexture` uploads it with the
pixel format picked from the channel count alone, the same as internal and as
source format: RED for 1 channel, RGB for 3, RGBA for 4 and RGB for every other
count, 2 for example. -/
theorem loadTexture_format_of_channels {R : Type} (W : Files R) (path : String) (g : Gfx R)
    (image : Image) (hdecoded : W.stbi_load path = some image) :
    (loadTexture W path g).2.calls =
      g.calls ++
        [GLCall.genTextures (g.textureNames + 1),
         GLCall.bindTexture (g.textureNames + 1),
         GLCall.texImage2D (loadTexture.format image.numChannels) image
           (loadTexture.format image.numChannels),
         GLCall.generateMipmap,
         GLCall.texParameteri TexParam.GL_TEXTURE_WRAP_S TexValue.GL_REPEAT,
         GLCall.texParameteri TexParam.GL_TEXTURE_WRAP_T TexValue.GL_REPEAT,
         GLCall.texParameteri TexParam.GL_TEXTURE_MIN_FILTER TexValue.GL_LINEAR,
         GLCall.texParameteri TexParam.GL_TEXTURE_MAG_FILTER TexValue.GL_LINEAR] ∧
    loadTexture.format 1 = PixelFormat.GL_RED ∧
    loadTexture.format 3 = PixelFormat.GL_RGB ∧
    loadTexture.format 4 = PixelFormat.GL_RGBA ∧
    loadTexture.format 2 = PixelFormat.GL_RGB ∧
    ∀ numChannels : Int, numChannels ≠ 1 → numChannels ≠ 3 → numChannels ≠ 4 →
      loadTexture.format numChannels = PixelFormat.GL_RGB := by
  refine ⟨?_, by decide, by decide, by decide, by decide, ?_⟩
  · have h := (loadTexture_effect W path g).2.2
    rw [hdecoded] at h
    exact h
  · intro n h1 h3 h4
    simp [loadTexture.format, h1, h3, h4]

/-- C12 on the two-channel image "grey_alpha.png" of the example files: it
decodes, and is uploaded as RGB, internal and source format alike. -/
theorem loadTexture_format_of_channels_witness :
    (Example.imageFiles : Files ℚ).stbi_load "grey_alpha.png" = some ⟨1, 1, 2, [128, 255]⟩ ∧
    ((loadTexture (Example.imageFiles : Files ℚ) "grey_alpha.png" Gfx.initial).2.calls =
      (Gfx.initial : Gfx ℚ).calls ++
        [GLCall.genTextures ((Gfx.initial : Gfx ℚ).textureNames + 1),
         GLCall.bindTexture ((Gfx.initial : Gfx ℚ).textureNames + 1),
         GLCall.texImage2D (loadTexture.format (⟨1, 1, 2, [128, 255]⟩ : Image).numChannels)
           ⟨1, 1, 2, [128, 255]⟩
           (loadTexture.format (⟨1, 1, 2, [128, 255]⟩ : Image).numChannels),
         GLCall.generateMipmap,
         GLCall.texParameteri TexParam.GL_TEXTURE_WRAP_S TexValue.GL_REPEAT,
         GLCall.texParameteri TexParam.GL_TEXTURE_WRAP_T TexValue.GL_REPEAT,
         GLCall.texParameteri TexParam.GL_TEXTURE_MIN_FILTER TexValue.GL_LINEAR,
         GLCall.texParameteri TexParam.GL_TEXTURE_MAG_FILTER TexValue.GL_LINEAR] ∧
    loadTexture.format 1 = PixelFormat.GL_RED ∧
    loadTexture.format 3 = PixelFormat.GL_RGB ∧
    loadTexture.format 4 = PixelFormat.GL_RGBA ∧
    loadTexture.format 2 = PixelFormat.GL_RGB ∧
    ∀ numChannels : Int, numChannels ≠ 1 → numChannels ≠ 3 → numChannels ≠ 4 →
      loadTexture.format numChannels = PixelFormat.GL_RGB) ∧
    loadTexture.format (⟨1, 1, 2, [128, 255]⟩ : Image).numChannels = PixelFormat.GL_RGB :=
  ⟨by rfl,
    loadTexture_format_of_channels Example.imageFiles "grey_alpha.png" Gfx.initial
      ⟨1, 1, 2, [128, 255]⟩ (by rfl),
    by decide⟩

/-- C13: for every mesh and every prior state, `Mesh::draw` submits, for each
texture `i` in increasing order, the selection of unit `i`, the setting of the
sampler uniform "textureDiffuse" followed by the decimal digits of `i` to `i`
and the binding of texture `i`'s handle, which binds it to unit `i`; then it
issues exactly one indexed draw, of the mesh's vertex array and with index
count the length of the index sequence; on return unit 0 is active (also
without textures) and the matrix uniforms, "model" among them, are unchanged. -/
theorem draw_binds_then_draws {R : Type} (mesh : Mesh R) (g : Gfx R) :
    ∃ d : DrawCall R,
      (Mesh.draw mesh g).calls =
        g.calls ++ Spec.bindCalls 0 mesh.textures ++
          [GLCall.bindVertexArray mesh.VAO, GLCall.drawElements d, GLCall.bindVertexArray 0,
            GLCall.activeTexture 0] ∧
      (Spec.bindCalls 0 mesh.textures : List (GLCall R)).length = 3 * mesh.textures.length ∧
      (∀ (i : Nat) (t : Texture), mesh.textures[i]? = some t →
        (Spec.bindCalls 0 mesh.textures : List (GLCall R))[3 * i]? =
          some (GLCall.activeTexture i) ∧
        (Spec.bindCalls 0 mesh.textures : List (GLCall R))[3 * i + 1]? =
          some (GLCall.setInt ("textureDiffuse" ++ toString i) (Int.ofNat i)) ∧
        (Spec.bindCalls 0 mesh.textures : List (GLCall R))[3 * i + 2]? =
          some (GLCall.bindTexture t.id) ∧
        d.textureBinding i = t.id) ∧
      "textureDiffuse" ++ toString (0 : Nat) = "textureDiffuse0" ∧
      "textureDiffuse" ++ toString (12 : Nat) = "textureDiffuse12" ∧
      drawCalls (Mesh.draw mesh g).calls = drawCalls g.calls ++ [d] ∧
      d.count = mesh.indices.length ∧
      d.vertexArray = mesh.VAO ∧
      (Mesh.draw mesh g).activeTexture = 0 ∧
      (Mesh.draw mesh g).shader.mat4s = g.shader.mat4s ∧
      (Mesh.draw mesh g).shader.mat4s "model" = g.shader.mat4s "model" := by
  obtain ⟨hcalls, hbound, _⟩ := bindTextures_log mesh.textures 0 g
  obtain ⟨hmat, _, hdraws⟩ := bindTextures_frame mesh.textures 0 g
  obtain ⟨hlen, hentries⟩ := bindCalls_entries (R := R) mesh.textures 0
  have hmat4 : (Mesh.draw mesh g).shader.mat4s = g.shader.mat4s := by
    simpa [Mesh.draw, glActiveTexture, glBindVertexArray, glDrawElements, Gfx.submit, forEach]
      using hmat
  refine ⟨⟨mesh.indices.length, mesh.VAO,
    (forEach Mesh.bindTextureStep mesh.textures g).shader,
    (forEach Mesh.bindTextureStep mesh.textures g).textureBinding⟩, ?_, hlen, ?_, by decide,
    by decide, ?_, rfl, rfl, ?_, hmat4, by rw [hmat4]⟩
  · simp [Mesh.draw, glActiveTexture, glBindVertexArray, glDrawElements, Gfx.submit, forEach,
      hcalls]
  · intro i t hi
    obtain ⟨h0, h1, h2⟩ := hentries i t hi
    simp only [Nat.zero_add] at h0 h1
    have hb := hbound i t hi
    simp only [Nat.zero_add] at hb
    exact ⟨h0, h1, h2, hb⟩
  · simp [Mesh.draw, glActiveTexture, glBindVertexArray, glDrawElements, Gfx.submit, forEach,
      drawCalls_append, drawCalls, hdraws]
  · simp [Mesh.draw, glActiveTexture, Gfx.submit]

/-- C14: a freshly constructed `Mesh` has the zero pose and the identity matrix,
and `Mesh::updateModelMatrix` leaves it as it is, so the constructor's matrix is
the one derived from the default pose; for every mesh, `updateModelMatrix`
twice gives what it gives once, and it never changes the pose vector, the
vertices, the indices, the textures or the name. -/
theorem updateModelMatrix_fresh_and_idempotent (vertices : List (Vertex ℝ))
    (indices : List Nat) (textures : List Texture) (g : Gfx ℝ) (mesh : Mesh ℝ) :
    (Mesh.new vertices indices textures g).1.mesh6DoF = (fun _ => 0) ∧
    (Mesh.new vertices indices textures g).1.meshMatrix = glm.mat4_1 ∧
    (Mesh.updateModelMatrix ⟨Real.cos, Real.sin, Real.sqrt⟩
        (Mesh.new vertices indices textures g).1).meshMatrix = glm.mat4_1 ∧
    Mesh.updateModelMatrix ⟨Real.cos, Real.sin, Real.sqrt⟩
        (Mesh.new vertices indices textures g).1 = (Mesh.new vertices indices textures g).1 ∧
    Mesh.updateModelMatrix ⟨Real.cos, Real.sin, Real.sqrt⟩
        (Mesh.updateModelMatrix ⟨Real.cos, Real.sin, Real.sqrt⟩ mesh) =
      Mesh.updateModelMatrix ⟨Real.cos, Real.sin, Real.sqrt⟩ mesh ∧
    (Mesh.updateModelMatrix ⟨Real.cos, Real.sin, Real.sqrt⟩ mesh).mesh6DoF = mesh.mesh6DoF ∧
    (Mesh.updateModelMatrix ⟨Real.cos, Real.sin, Real.sqrt⟩ mesh).vertices = mesh.vertices ∧
    (Mesh.updateModelMatrix ⟨Real.cos, Real.sin, Real.sqrt⟩ mesh).indices = mesh.indices ∧
    (Mesh.updateModelMatrix ⟨Real.cos, Real.sin, Real.sqrt⟩ mesh).textures = mesh.textures ∧
    (Mesh.updateModelMatrix ⟨Real.cos, Real.sin, Real.sqrt⟩ mesh).meshName = mesh.meshName := by
  have hfresh : (Mesh.updateModelMatrix ⟨Real.cos, Real.sin, Real.sqrt⟩
      (Mesh.new vertices indices textures g).1).meshMatrix = glm.mat4_1 := by
    simp only [Mesh.updateModelMatrix, Mesh.new]
    rw [translate_zero, rotate_zero _ Real.cos_zero Real.sin_zero,
      rotate_zero _ Real.cos_zero Real.sin_zero, rotate_zero _ Real.cos_zero Real.sin_zero]
  refine ⟨rfl, rfl, hfresh, ?_, rfl, rfl, rfl, rfl, rfl, rfl⟩
  have hrec : ∀ m : Mesh ℝ, Mesh.updateModelMatrix ⟨Real.cos, Real.sin, Real.sqrt⟩ m =
      { m with
        meshMatrix := (Mesh.updateModelMatrix ⟨Real.cos, Real.sin, Real.sqrt⟩ m).meshMatrix } :=
    fun _ => rfl
  rw [hrec, hfresh]
  rfl

/-- C15: in presets mode, with material `m` and dispersion `d` selected, one
call of `drawIMGUIWindow` runs `updateMaterialProperties` before
`updateDispersionStrength`.  For a material other than Metal it leaves the green
ratio at `base (m)` and the red and blue ones at `base (m)` minus and plus the
dispersion amount held before the call; the amount it leaves is the one of `d`;
a second call with the same selections then puts the red and blue ratios at
`base (m)` minus and plus the amount of `d`.  For Metal the three ratios are 0
and `F0` is 1 after either call. -/
theorem drawIMGUIWindow_presets_order {R : Type} [Field R] (ui ui2 : ImGui R) (s : Globals R)
    (m d : Int) (hpresets : ui.Checkbox "Presets" s.imguiPresets = true)
    (hm : ui.Combo "Material" s.selectedMaterial = m)
    (hd : ui.Combo "Dispersion Strength" s.selectedDispersion = d)
    (hpresets2 : ui2.Checkbox "Presets" true = true) (hm2 : ui2.Combo "Material" m = m)
    (hd2 : ui2.Combo "Dispersion Strength" d = d) :
    drawIMGUIWindow ui s =
      updateDispersionStrength d
        { updateMaterialProperties m { s with imguiPresets := true, selectedMaterial := m } with
          selectedDispersion := d } ∧
    (drawIMGUIWindow ui s).dispersionAmount = Spec.amount d ∧
    (m ≠ Metal →
      (drawIMGUIWindow ui s).etaG = Spec.base m ∧
      (drawIMGUIWindow ui s).etaR = Spec.base m - s.dispersionAmount ∧
      (drawIMGUIWindow ui s).etaB = Spec.base m + s.dispersionAmount) ∧
    (m = Metal →
      (drawIMGUIWindow ui s).etaR = 0 ∧ (drawIMGUIWindow ui s).etaG = 0 ∧
      (drawIMGUIWindow ui s).etaB = 0 ∧ (drawIMGUIWindow ui s).F0 = 1) ∧
    (drawIMGUIWindow ui2 (drawIMGUIWindow ui s)).dispersionAmount = Spec.amount d ∧
    (m ≠ Metal →
      (drawIMGUIWindow ui2 (drawIMGUIWindow ui s)).etaG = Spec.base m ∧
      (drawIMGUIWindow ui2 (drawIMGUIWindow ui s)).etaR = Spec.base m - Spec.amount d ∧
      (drawIMGUIWindow ui2 (drawIMGUIWindow ui s)).etaB = Spec.base m + Spec.amount d) ∧
    (m = Metal →
      (drawIMGUIWindow ui2 (drawIMGUIWindow ui s)).etaR = 0 ∧
      (drawIMGUIWindow ui2 (drawIMGUIWindow ui s)).etaG = 0 ∧
      (drawIMGUIWindow ui2 (drawIMGUIWindow ui s)).etaB = 0 ∧
      (drawIMGUIWindow ui2 (drawIMGUIWindow ui s)).F0 = 1) := by
  have first : ∀ (u : ImGui R) (t : Globals R), u.Checkbox "Presets" t.imguiPresets = true →
      u.Combo "Material" t.selectedMaterial = m →
      u.Combo "Dispersion Strength" t.selectedDispersion = d →
      drawIMGUIWindow u t =
        updateDispersionStrength d
          { updateMaterialProperties m { t with imguiPresets := true, selectedMaterial := m }
            with selectedDispersion := d } := by
    intro u t h1 h2 h3
    rw [drawIMGUIWindow_presets_eq u t h1, h2, h3]
  have values : ∀ t : Globals R,
      (updateDispersionStrength d
          { updateMaterialProperties m { t with imguiPresets := true, selectedMaterial := m }
            with selectedDispersion := d }).dispersionAmount = Spec.amount d ∧
      (m ≠ Metal →
        (updateDispersionStrength d
          { updateMaterialProperties m { t with imguiPresets := true, selectedMaterial := m }
            with selectedDispersion := d }).etaG = Spec.base m ∧
        (updateDispersionStrength d
          { updateMaterialProperties m { t with imguiPresets := true, selectedMaterial := m }
            with selectedDispersion := d }).etaR = Spec.base m - t.dispersionAmount ∧
        (updateDispersionStrength d
          { updateMaterialProperties m { t with imguiPresets := true, selectedMaterial := m }
            with selectedDispersion := d }).etaB = Spec.base m + t.dispersionAmount) ∧
      (m = Metal →
        (updateDispersionStrength d
          { updateMaterialProperties m { t with imguiPresets := true, selectedMaterial := m }
            with selectedDispersion := d }).etaR = 0 ∧
        (updateDispersionStrength d
          { updateMaterialProperties m { t with imguiPresets := true, selectedMaterial := m }
            with selectedDispersion := d }).etaG = 0 ∧
        (updateDispersionStrength d
          { updateMaterialProperties m { t with imguiPresets := true, selectedMaterial := m }
            with selectedDispersion := d }).etaB = 0 ∧
        (updateDispersionStrength d
          { updateMaterialProperties m { t with imguiPresets := true, selectedMaterial := m }
            with selectedDispersion := d }).F0 = 1) := by
    intro t
    obtain ⟨ha, hr, hg, hb, hf, _⟩ := updateDispersionStrength_effect d
      { updateMaterialProperties m { t with imguiPresets := true, selectedMaterial := m }
        with selectedDispersion := d }
    refine ⟨ha, ?_, ?_⟩
    · intro hne
      obtain ⟨h1, h2, h3⟩ := updateMaterialProperties_nonmetal m
        { t with imguiPresets := true, selectedMaterial := m } hne
      exact ⟨hg.trans h2, hr.trans h1, hb.trans h3⟩
    · intro he
      subst he
      obtain ⟨h1, h2, h3, h4⟩ := updateMaterialProperties_metal
        { t with imguiPresets := true, selectedMaterial := Metal }
      exact ⟨hr.trans h1, hg.trans h2, hb.trans h3, hf.trans h4⟩
  have h1 := first ui s hpresets hm hd
  obtain ⟨v1, v2, v3⟩ := values s
  have hstate : (drawIMGUIWindow ui s).imguiPresets = true ∧
      (drawIMGUIWindow ui s).selectedMaterial = m ∧
      (drawIMGUIWindow ui s).selectedDispersion = d := by
    rw [h1]
    obtain ⟨_, _, _, _, _, hp, hsm, hsd⟩ := updateDispersionStrength_effect d
      { updateMaterialProperties m { s with imguiPresets := true, selectedMaterial := m }
        with selectedDispersion := d }
    obtain ⟨_, fp, fm, _⟩ := updateMaterialProperties_frame m
      { s with imguiPresets := true, selectedMaterial := m }
    exact ⟨hp.trans fp, hsm.trans fm, hsd⟩
  have h2 := first ui2 (drawIMGUIWindow ui s) (by rw [hstate.1]; exact hpresets2)
    (by rw [hstate.2.1]; exact hm2) (by rw [hstate.2.2]; exact hd2)
  obtain ⟨w1, w2, w3⟩ := values (drawIMGUIWindow ui s)
  refine ⟨h1, by rw [h1]; exact v1, fun hne => by rw [h1]; exact v2 hne,
    fun he => by rw [h1]; exact v3 he, by rw [h2]; exact w1, ?_, fun he => by rw [h2]; exact w3 he⟩
  intro hne
  obtain ⟨hg, hr, hb⟩ := w2 hne
  have hdisp : (drawIMGUIWindow ui s).dispersionAmount = Spec.amount d := by rw [h1]; exact v1
  rw [h2]
  exact ⟨hg, hr.trans (congrArg (fun a => Spec.base m - a) hdisp),
    hb.trans (congrArg (fun a => Spec.base m + a) hdisp)⟩

/-- C15 from the initial globals (dispersion amount 0), the user ticking
"Presets" and picking Water and Strong, then touching nothing in the next
frame: the hypotheses hold; the first call leaves the red and blue ratios at
0.75, without dispersion, and the amount at 0.05; the second call puts them at
0.70 and 0.80. -/
theorem drawIMGUIWindow_presets_order_witness :
    (Example.pick Water Strong : ImGui ℚ).Checkbox "Presets"
        (Globals.initial : Globals ℚ).imguiPresets = true ∧
    (Example.pick Water Strong : ImGui ℚ).Combo "Material"
        (Globals.initial : Globals ℚ).selectedMaterial = Water ∧
    (Example.pick Water Strong : ImGui ℚ).Combo "Dispersion Strength"
        (Globals.initial : Globals ℚ).selectedDispersion = Strong ∧
    ((drawIMGUIWindow (Example.pick Water Strong) (Globals.initial : Globals ℚ)).etaG =
        Spec.base Water ∧
      (drawIMGUIWindow (Example.pick Water Strong) (Globals.initial : Globals ℚ)).etaR =
        Spec.base Water - (Globals.initial : Globals ℚ).dispersionAmount ∧
      (drawIMGUIWindow (Example.pick Water Strong) (Globals.initial : Globals ℚ)).etaB =
        Spec.base Water + (Globals.initial : Globals ℚ).dispersionAmount) ∧
    ((drawIMGUIWindow Example.idle
          (drawIMGUIWindow (Example.pick Water Strong) (Globals.initial : Globals ℚ))).etaG =
        Spec.base Water ∧
      (drawIMGUIWindow Example.idle
          (drawIMGUIWindow (Example.pick Water Strong) (Globals.initial : Globals ℚ))).etaR =
        Spec.base Water - Spec.amount Strong ∧
      (drawIMGUIWindow Example.idle
          (drawIMGUIWindow (Example.pick Water Strong) (Globals.initial : Globals ℚ))).etaB =
        Spec.base Water + Spec.amount Strong) ∧
    (Spec.base Water : ℚ) = 3 / 4 ∧
    (Globals.initial : Globals ℚ).dispersionAmount = 0 ∧
    (Spec.amount Strong : ℚ) = 1 / 20 ∧
    (drawIMGUIWindow (Example.pick Water Strong) (Globals.initial : Globals ℚ)).etaR = 3 / 4 ∧
    (drawIMGUIWindow (Example.pick Water Strong)
        (Globals.initial : Globals ℚ)).dispersionAmount = 1 / 20 ∧
    (drawIMGUIWindow Example.idle
        (drawIMGUIWindow (Example.pick Water Strong) (Globals.initial : Globals ℚ))).etaR =
      7 / 10 ∧
    (drawIMGUIWindow Example.idle
        (drawIMGUIWindow (Example.pick Water Strong) (Globals.initial : Globals ℚ))).etaB =
      4 / 5 :=
  ⟨rfl, by rfl, by rfl,
    (drawIMGUIWindow_presets_order (Example.pick Water Strong) Example.idle Globals.initial Water
      Strong rfl (by rfl) (by rfl) rfl rfl rfl).2.2.1 (by decide),
    (drawIMGUIWindow_presets_order (Example.pick Water Strong) Example.idle Globals.initial Water
      Strong rfl (by rfl) (by rfl) rfl rfl rfl).2.2.2.2.2.1 (by decide),
    by norm_num [Spec.base, Water],
    by norm_num [Globals.initial],
    by norm_num [Spec.amount, Strong, None, Weak],
    by norm_num [drawIMGUIWindow, Example.pick, Globals.initial, updateMaterialProperties,
      updateDispersionStrength, Water, Strong, None, Weak,
      show ¬("Dispersion Strength" = "Material") by decide],
    by norm_num [drawIMGUIWindow, Example.pick, Globals.initial, updateMaterialProperties,
      updateDispersionStrength, Water, Strong, None, Weak,
      show ¬("Dispersion Strength" = "Material") by decide],
    by norm_num [drawIMGUIWindow, Example.pick, Example.idle, Globals.initial,
      updateMaterialProperties, updateDispersionStrength, Water, Strong, None, Weak,
      show ¬("Dispersion Strength" = "Material") by decide],
    by norm_num [drawIMGUIWindow, Example.pick, Example.idle, Globals.initial,
      updateMaterialProperties, updateDispersionStrength, Water, Strong, None, Weak,
      show ¬("Dispersion Strength" = "Material") by decide]⟩

end RTR
